import Mathlib

/-!
Verification development for the LaTeX → DOCX document-conversion core
(`backend/app/core/compiler/latex2docx/`).

The Python modules are shallowly embedded: pure string/list processing is
translated function-by-function into executable Lean definitions, stateful
methods become explicit state-passing functions, Python `dict` becomes an
association list with first-occurrence lookup and in-place overwrite, and
fallible operations return `Option`.  Only the fields and branches that the
verified functions actually touch are carried in the embedded records; the
translation of each function follows the branch structure of its source.
-/

namespace SmartLatex

/-! ## Python string primitives

Helpers mirroring the Python built-ins used throughout the source:
`str.strip`, substring containment (`a in b`), `str.startswith`,
`str.lower`, and `int(...)` parsing.  All operate on `List Char`.
-/

/-- Python whitespace predicate for `str.strip` / `\s` (ASCII range). -/
def pyIsSpace (c : Char) : Bool :=
  c = ' ' || c = '\t' || c = '\n' || c = '\x0d' || c = '\x0c' || c = '\x0b'

/-- Python `str.strip()` on a character list. -/
def pyStripL (l : List Char) : List Char :=
  ((l.dropWhile pyIsSpace).reverse.dropWhile pyIsSpace).reverse

/-- Python `str.strip()`. -/
def pyStrip (s : String) : String :=
  ⟨pyStripL s.data⟩

/-- Python substring containment `a in b` (contiguous substring). -/
def pyInStr (a b : String) : Bool :=
  decide (List.IsInfix a.data b.data)

/-- Python `str.startswith` on character lists. -/
def startsWithL (p l : List Char) : Bool :=
  p.isPrefixOf l

/-- Python `str.lower()` restricted to ASCII letters (the only cased
characters appearing in the embedded inputs). -/
def pyLower (l : List Char) : List Char :=
  l.map Char.toLower

/-- Parse the digit tail of a Python `int(...)` literal. -/
def parseDigits (l : List Char) : Option Nat :=
  match l with
  | [] => none
  | _ =>
    if l.all Char.isDigit then
      some (l.foldl (fun acc c => acc * 10 + (c.toNat - 48)) 0)
    else
      none

/-- Python `int(s)` for an optionally signed decimal string; `none` models
`ValueError`. -/
def pyInt (l : List Char) : Option Int :=
  match l with
  | '-' :: rest => (parseDigits rest).map (fun n => -(n : Int))
  | '+' :: rest => (parseDigits rest).map (fun n => (n : Int))
  | _ => (parseDigits l).map (fun n => (n : Int))

/-! ## Tokenizer data model

`tokenizer.Token` / `tokenizer.TokenType` as consumed by the converter and
the table builder.  `extra` attributes are flattened into optional fields:
`name` (command / environment name), `content` (math content) and `label`
(custom list-item label). -/

inductive TokenType where
  | TEXT
  | WHITESPACE
  | COMMAND
  | ENV_BEGIN
  | ENV_END
  | BRACE_OPEN
  | BRACE_CLOSE
  | BRACKET_OPEN
  | BRACKET_CLOSE
  | MATH_INLINE
  | MATH_DISPLAY
  | NEWLINE_CMD
  | PAR_BREAK
  | COMMENT
  | ITEM
  | AMPERSAND
  | TOPRULE
  | MIDRULE
  | BOTTOMRULE
  | HLINE
  | CMIDRULE
  | EOF
  deriving DecidableEq, Repr

structure Token where
  type : TokenType
  value : String := ""
  name : String := ""
  content : String := ""
  label : Option String := none
  deriving DecidableEq, Repr

/-! ## `table_builder.py` — border-style detection -/

/-- `table_builder.BorderStyle`. -/
structure BorderStyle where
  style : String := "none"
  deriving DecidableEq, Repr

/-- `table_builder.detect_border_style`. -/
def detect_border_style (tokens : List Token) (col_spec : String := "") : BorderStyle :=
  let has_booktabs := tokens.any (fun t =>
    t.type = TokenType.TOPRULE || t.type = TokenType.MIDRULE ||
      t.type = TokenType.BOTTOMRULE)
  let has_hline := tokens.any (fun t => t.type = TokenType.HLINE)
  let has_vert := pyInStr "|" col_spec
  if has_booktabs then
    { style := "three_line" }
  else if has_hline then
    if has_vert then { style := "grid" } else { style := "hline_only" }
  else
    { style := "none" }

/-! ## `table_builder.py` — column widths

`ColumnDef.width_cm` is a `float | None` in the source; widths are embedded
as rationals.  `_apply_column_widths` writes its per-column widths into the
document XML; `colWidthsCm` is the `col_widths_cm` list that the function
computes before doing so, including the Python truthiness test
`if col.width_cm:` (which treats a width of `0.0` like a missing one). -/

structure ColumnDef where
  align : String := "left"
  width_cm : Option ℚ := none
  left_border : Bool := false
  right_border : Bool := false
  deriving DecidableEq, Repr

/-- Python truthiness of `col.width_cm` (`None` and `0.0` are falsy). -/
def widthTruthy (w : Option ℚ) : Bool :=
  match w with
  | none => false
  | some q => q ≠ 0

/-- `total_fixed = sum(c.width_cm for c in columns if c.width_cm)`. -/
def total_fixed (columns : List ColumnDef) : ℚ :=
  (columns.filter (fun c => widthTruthy c.width_cm)).foldl
    (fun acc c => acc + c.width_cm.getD 0) 0

/-- `num_auto = sum(1 for c in columns if c.width_cm is None)`. -/
def num_auto (columns : List ColumnDef) : Nat :=
  (columns.filter (fun c => c.width_cm = none)).length

/-- `page_width_cm = 15.0`; `auto_width = max(remaining / num_auto, 1.0)`
when there is at least one auto column, else `0`. -/
def auto_width (columns : List ColumnDef) : ℚ :=
  if num_auto columns > 0 then
    max ((15 - total_fixed columns) / (num_auto columns : ℚ)) 1
  else
    0

/-- The `col_widths_cm` list computed by `_apply_column_widths`. -/
def colWidthsCm (columns : List ColumnDef) : List ℚ :=
  columns.map (fun col =>
    if widthTruthy col.width_cm then col.width_cm.getD 0 else auto_width columns)

/-! ## `converter.py` — `SectionCounters` -/

/-- `converter.SectionCounters` (the `profile` back-reference is threaded
separately: the converter always constructs the counters with a profile,
so `_unnumbered` is the profile's `numbering.unnumbered_headings` set). -/
structure SectionCounters where
  chapter : Nat := 0
  «section» : Nat := 0
  subsection : Nat := 0
  subsubsection : Nat := 0
  deriving DecidableEq, Repr

/-- `SectionCounters.increment`: bump the counter of `level` and reset the
deeper ones, returning the new state and the formatted number string
(`None` for chapters and for out-of-range levels). -/
def SectionCounters.increment (c : SectionCounters) (level : Nat) :
    SectionCounters × Option String :=
  if level = 1 then
    ({ c with chapter := c.chapter + 1, «section» := 0, subsection := 0,
              subsubsection := 0 }, none)
  else if level = 2 then
    ({ c with «section» := c.«section» + 1, subsection := 0, subsubsection := 0 },
     some (toString c.chapter ++ "." ++ toString (c.«section» + 1)))
  else if level = 3 then
    ({ c with subsection := c.subsection + 1, subsubsection := 0 },
     some (toString c.chapter ++ "." ++ toString c.«section» ++ "." ++
           toString (c.subsection + 1)))
  else if level = 4 then
    ({ c with subsubsection := c.subsubsection + 1 },
     some (toString c.chapter ++ "." ++ toString c.«section» ++ "." ++
           toString c.subsection ++ "." ++ toString (c.subsubsection + 1)))
  else
    (c, none)

/-! ## `text_utils.py` — symbol table -/

/-- `text_utils.SYMBOL_MAP`: LaTeX symbol commands → Unicode. -/
def SYMBOL_MAP : List (String × String) := [
  ("geq", "≥"), ("leq", "≤"), ("neq", "≠"),
  ("approx", "≈"), ("times", "×"), ("div", "÷"),
  ("pm", "±"), ("cdot", "·"), ("ldots", "…"),
  ("dots", "…"), ("rightarrow", "→"), ("leftarrow", "←"),
  ("Rightarrow", "⇒"), ("Leftarrow", "⇐"),
  ("leftrightarrow", "↔"), ("uparrow", "↑"),
  ("downarrow", "↓"), ("infty", "∞"), ("partial", "∂"),
  ("nabla", "∇"), ("forall", "∀"), ("exists", "∃"),
  ("in", "∈"), ("notin", "∉"), ("subset", "⊂"),
  ("supset", "⊃"), ("cup", "∪"), ("cap", "∩"),
  ("alpha", "α"), ("beta", "β"), ("gamma", "γ"),
  ("delta", "δ"), ("lambda", "λ"), ("mu", "μ"),
  ("sigma", "σ"), ("omega", "ω"), ("pi", "π"),
  ("theta", "θ"), ("phi", "φ"), ("sum", "∑"),
  ("prod", "∏"), ("int", "∫"), ("sqrt", "√"),
  ("degree", "°"), ("copyright", "©"), ("registered", "®"),
  ("trademark", "™"), ("dag", "†"), ("ddag", "‡"),
  ("S", "§"), ("pounds", "£"), ("yen", "¥"),
  ("euro", "€"), ("textregistered", "®"),
  ("texttrademark", "™"), ("textcopyright", "©"),
  ("textdegree", "°"), ("LaTeX", "LaTeX"), ("TeX", "TeX")]

/-- Dictionary lookup in `SYMBOL_MAP`. -/
def symbolLookup (name : String) : Option String :=
  (SYMBOL_MAP.find? (fun p => p.1 = name)).map Prod.snd

/-! ## `math_handler.py`

The primary translation path (`latex2mathml` + the `MML2OMML.xsl` XSLT) lives
in external libraries; it is embedded as an abstract `translate` function
returning `Option` (`none` models every exception swallowed by
`latex_to_omml`, which returns `None` on any failure).  The fallback text
path `_latex_math_to_text` is pure string processing and is translated in
full. -/

/-- First pass of `_latex_math_to_text`:
`re.sub(r"\\([a-zA-Z]+)", ...)` replacing known commands with their Unicode
symbol and keeping unknown commands verbatim. -/
def mathCmdSub (fuel : Nat) (l : List Char) : List Char :=
  match fuel, l with
  | 0, l => l
  | _, [] => []
  | fuel + 1, '\\' :: rest =>
    let name := rest.takeWhile Char.isAlpha
    if name.isEmpty then
      '\\' :: mathCmdSub fuel rest
    else
      match symbolLookup ⟨name⟩ with
      | some v => v.data ++ mathCmdSub fuel (rest.dropWhile Char.isAlpha)
      | none => '\\' :: (name ++ mathCmdSub fuel (rest.dropWhile Char.isAlpha))
  | fuel + 1, c :: rest => c :: mathCmdSub fuel rest

/-- `text.replace(c, "")` for a single character: removes every occurrence. -/
def removeChar (c : Char) (l : List Char) : List Char :=
  l.filter (fun x => x ≠ c)

/-- `math_handler._latex_math_to_text`. -/
def latex_math_to_text (latex_str : String) : String :=
  let t1 := mathCmdSub latex_str.data.length latex_str.data
  let t2 := removeChar '_' (removeChar '^' (removeChar '\x7d'
    (removeChar '\x7b' (removeChar '\\' t1))))
  pyStrip ⟨t2⟩

/-- Result of `add_math_to_paragraph`: either a native OMML math object or
the styled fallback run. -/
inductive MathInsertion where
  | native (omml : String)
  | fallbackRun (text : String) (font : String) (italic : Bool) (size_pt : Nat)
  deriving DecidableEq, Repr

/-- `math_handler.add_math_to_paragraph`, with the external
LaTeX→MathML→OMML pipeline abstracted as `translate` (`latex_to_omml`). -/
def add_math_to_paragraph (translate : String → Option String)
    (latex_str : String) (display : Bool) : MathInsertion :=
  match translate latex_str with
  | some omml => .native omml
  | none =>
    .fallbackRun (latex_math_to_text latex_str) "Cambria Math" true
      (if display then 12 else 11)

/-! ## `tex_auxfiles.py` — data classes -/

/-- `tex_auxfiles.TocEntry`. -/
structure TocEntry where
  level : String
  number : String
  title : String
  page : Int
  deriving DecidableEq, Repr

/-- `TocEntry.full_title`. -/
def TocEntry.full_title (e : TocEntry) : String :=
  if e.number = "" then e.title else e.number ++ " " ++ e.title

/-- `tex_auxfiles.FloatEntry`. -/
structure FloatEntry where
  kind : String
  number : String
  caption : String
  page : Int
  deriving DecidableEq, Repr

/-- `tex_auxfiles.LabelInfo`. -/
structure LabelInfo where
  key : String
  display : String
  page : Int
  deriving DecidableEq, Repr

/-- `tex_auxfiles.TexStructure`; the Python `dict` of labels is embedded as
an association list with first-occurrence lookup and in-place overwrite. -/
structure TexStructure where
  toc_entries : List TocEntry := []
  lof_entries : List FloatEntry := []
  lot_entries : List FloatEntry := []
  labels : List (String × LabelInfo) := []
  citation_order : List String := []
  toc_cursor : Nat := 0
  deriving DecidableEq, Repr

/-- `labels[key]` lookup. -/
def labelsGet (labels : List (String × LabelInfo)) (k : String) : Option LabelInfo :=
  (labels.find? (fun p => p.1 = k)).map Prod.snd

/-- `labels[key] = v` (dict assignment: overwrite in place or append). -/
def labelsSet (labels : List (String × LabelInfo)) (k : String) (v : LabelInfo) :
    List (String × LabelInfo) :=
  if (labels.find? (fun p => p.1 = k)).isSome then
    labels.map (fun p => if p.1 = k then (k, v) else p)
  else
    labels ++ [(k, v)]

/-! ## `tex_auxfiles.py` — text normalization helpers

Each `re.sub` in `_clean_latex_text` is translated as a left-to-right
scanner; the scanners take a fuel argument (each step consumes at least one
character, so `length` fuel is always enough) and are exercised by
evaluation. -/

/-- Python `str.replace(old, new)` (all non-overlapping occurrences,
left to right). -/
def replaceStrL (fuel : Nat) (old rep l : List Char) : List Char :=
  match fuel, l with
  | 0, l => l
  | _, [] => []
  | fuel + 1, c :: rest =>
    if old ≠ [] ∧ startsWithL old (c :: rest) then
      rep ++ replaceStrL fuel old rep ((c :: rest).drop old.length)
    else
      c :: replaceStrL fuel old rep rest

/-- Python `s.replace(old, rep)`. -/
def pyReplace (s old rep : String) : String :=
  ⟨replaceStrL s.data.length old.data rep.data s.data⟩

/-- Matcher for `\\[hv]space\s*\*?\s*\{[^}]*\}` anchored at the head;
returns the remainder after the match. -/
def matchHvspace (l : List Char) : Option (List Char) :=
  match l with
  | '\\' :: c :: rest =>
    if c = 'h' || c = 'v' then
      if startsWithL "space".data rest then
        let r1 := (rest.drop 5).dropWhile pyIsSpace
        let r2 := match r1 with
          | '*' :: t => t.dropWhile pyIsSpace
          | _ => r1
        match r2 with
        | '\x7b' :: t =>
          match t.dropWhile (fun x => x ≠ '\x7d') with
          | '\x7d' :: tail => some tail
          | _ => none
        | _ => none
      else none
    else none
  | _ => none

/-- `re.sub(r"\\[hv]space\s*\*?\s*\{[^}]*\}", " ", text)`. -/
def subHvspace (fuel : Nat) (l : List Char) : List Char :=
  match fuel, l with
  | 0, l => l
  | _, [] => []
  | fuel + 1, c :: rest =>
    match matchHvspace (c :: rest) with
    | some tail => ' ' :: subHvspace fuel tail
    | none => c :: subHvspace fuel rest

/-- `re.sub(r"\\penalty[^{}\s]*", "", text)`. -/
def subPenalty (fuel : Nat) (l : List Char) : List Char :=
  match fuel, l with
  | 0, l => l
  | _, [] => []
  | fuel + 1, c :: rest =>
    if c = '\\' ∧ startsWithL "penalty".data rest then
      subPenalty fuel
        ((rest.drop 7).dropWhile
          (fun x => ¬(x = '\x7b' ∨ x = '\x7d' ∨ pyIsSpace x = true)))
    else
      c :: subPenalty fuel rest

/-- Python word character (`\w`, ASCII range). -/
def pyIsWord (c : Char) : Bool :=
  c.isAlphanum || c = '_'

/-- `re.sub(r"\\@M\b", "", text)`. -/
def subAtM (fuel : Nat) (l : List Char) : List Char :=
  match fuel, l with
  | 0, l => l
  | _, [] => []
  | fuel + 1, c :: rest =>
    if c = '\\' then
      match rest with
      | '@' :: 'M' :: tail =>
        match tail with
        | [] => []
        | d :: _ =>
          if pyIsWord d then c :: subAtM fuel rest
          else subAtM fuel tail
      | _ => c :: subAtM fuel rest
    else
      c :: subAtM fuel rest

/-- `re.sub(r"\$([^$]*)\$", r"\1", text)`. -/
def subDollar (fuel : Nat) (l : List Char) : List Char :=
  match fuel, l with
  | 0, l => l
  | _, [] => []
  | fuel + 1, c :: rest =>
    if c = '$' then
      match rest.dropWhile (fun x => x ≠ '$') with
      | '$' :: tail => rest.takeWhile (fun x => x ≠ '$') ++ subDollar fuel tail
      | _ => c :: subDollar fuel rest
    else
      c :: subDollar fuel rest

/-- `re.sub(r"\\[,;!>:]", " ", text)`. -/
def subSpacing (fuel : Nat) (l : List Char) : List Char :=
  match fuel, l with
  | 0, l => l
  | _, [] => []
  | fuel + 1, c :: rest =>
    if c = '\\' then
      match rest with
      | d :: tail =>
        if d = ',' ∨ d = ';' ∨ d = '!' ∨ d = '>' ∨ d = ':' then
          ' ' :: subSpacing fuel tail
        else
          c :: subSpacing fuel rest
      | [] => [c]
    else
      c :: subSpacing fuel rest

/-- Character class `[a-zA-Z@]` of the generic-command pattern. -/
def isCmdChar (c : Char) : Bool :=
  c.isAlpha || c = '@'

/-- `re.sub(r"\\[a-zA-Z@]+\s*", "", text)`. -/
def subGenericCmd (fuel : Nat) (l : List Char) : List Char :=
  match fuel, l with
  | 0, l => l
  | _, [] => []
  | fuel + 1, c :: rest =>
    if c = '\\' ∧ (rest.takeWhile isCmdChar) ≠ [] then
      subGenericCmd fuel ((rest.dropWhile isCmdChar).dropWhile pyIsSpace)
    else
      c :: subGenericCmd fuel rest

/-- `tex_auxfiles._clean_latex_text`. -/
def clean_latex_text (text : String) : String :=
  let t := pyReplace text "\\ignorespaces" ""
  let t := pyReplace t "\\nobreakspace\x7b\x7d" " "
  let t := pyReplace t "\\protect" ""
  let t := pyReplace t "\\relax" ""
  let t := pyReplace t "\\protected@file@percent" ""
  let t := pyReplace t "~" " "
  let l := subHvspace t.data.length t.data
  let l := subPenalty l.length l
  let l := subAtM l.length l
  let l := subDollar l.length l
  let l := subSpacing l.length l
  let l := subGenericCmd l.length l
  let l := removeChar '\x7b' l
  let l := removeChar '\x7d' l
  pyStrip ⟨l⟩

/-- `tex_auxfiles._normalize_for_match`. -/
def normalize_for_match (text : String) : String :=
  let t := clean_latex_text text
  ⟨pyLower (t.data.filter (fun c => ¬ pyIsSpace c = true))⟩

/-- `tex_auxfiles._titles_match`. -/
def titles_match (a b : String) : Bool :=
  if a = "" || b = "" then false
  else a = b || pyInStr a b || pyInStr b a

/-! ## `tex_auxfiles.py` — brace-balanced extraction -/

/-- Scanning core of `_extract_brace_content`: consume characters after the
opening brace, tracking depth; returns the consumed prefix, whether a
matching close was found, and the remainder. -/
def ebcAux : List Char → Nat → (List Char × Bool × List Char)
  | [], _ => ([], false, [])
  | c :: rest, depth =>
    let d := if c = '\x7b' then depth + 1
             else if c = '\x7d' then depth - 1 else depth
    if d = 0 then ([], true, rest)
    else
      let r := ebcAux rest d
      (c :: r.1, r.2.1, r.2.2)

/-- `tex_auxfiles._extract_brace_content`, phrased on the suffix that starts
at the given index; returns `(content, remainder-after-closing-brace)`.
When the brace is never closed the source slices `text[start+1 : len-1]`,
dropping the final character — modelled by `dropLast`. -/
def extract_brace_content : List Char → (List Char × List Char)
  | '\x7b' :: body =>
    let r := ebcAux body 1
    if r.2.1 then (r.1, r.2.2) else (r.1.dropLast, [])
  | l => ([], l)

/-- `tex_auxfiles._extract_all_brace_groups`. -/
def extractAllBraceGroups (fuel : Nat) (l : List Char) : List (List Char) :=
  match fuel, l with
  | 0, _ => []
  | _, [] => []
  | fuel + 1, c :: rest =>
    if c = '\x7b' then
      let r := extract_brace_content (c :: rest)
      r.1 :: extractAllBraceGroups fuel r.2
    else
      extractAllBraceGroups fuel rest

/-! ## `tex_auxfiles.py` — line parsers -/

/-- `tex_auxfiles._parse_numberline`. -/
def parse_numberline (text : List Char) : String × String :=
  if startsWithL "\\numberline".data text then
    let pos := (text.drop 11).dropWhile pyIsSpace
    match pos with
    | '\x7b' :: _ =>
      let r := extract_brace_content pos
      (clean_latex_text ⟨r.1⟩, clean_latex_text ⟨r.2⟩)
    | _ => ("", clean_latex_text ⟨pos⟩)
  else
    ("", clean_latex_text ⟨text⟩)

/-- Matcher for `\contentsline\s*\{WORD\}` anchored at the head; returns the
captured word and the remainder after the closing brace. -/
def matchContentsline (l : List Char) : Option (String × List Char) :=
  if startsWithL "\\contentsline".data l then
    let r1 := (l.drop 13).dropWhile pyIsSpace
    match r1 with
    | '\x7b' :: t =>
      let w := t.takeWhile pyIsWord
      if w = [] then none
      else
        match t.dropWhile pyIsWord with
        | '\x7d' :: tail => some (⟨w⟩, tail)
        | _ => none
    | _ => none
  else none

/-- Parse `page = int(groups[1].strip())`, with `ValueError ⇒ 0`. -/
def parsePage (g : List Char) : Int :=
  (pyInt (pyStripL g)).getD 0

/-- `tex_auxfiles._parse_toc_line`. -/
def parse_toc_line (line : String) : Option TocEntry :=
  let pfx := "\\@writefile\x7btoc\x7d".data
  if startsWithL pfx line.data then
    let rest := line.data.drop pfx.length
    let restAt := rest.dropWhile (fun c => c ≠ '\x7b')
    match restAt with
    | [] => none
    | _ =>
      let content := (extract_brace_content restAt).1
      if content = [] then none
      else
        match matchContentsline content with
        | none => none
        | some (level, after) =>
          if level = "chapter" ∨ level = "section" ∨ level = "subsection" ∨
              level = "subsubsection" then
            let groups := extractAllBraceGroups after.length after
            match groups with
            | g0 :: g1 :: _ =>
              let r := parse_numberline g0
              some ⟨level, r.1, r.2, parsePage g1⟩
            | _ => none
          else none
  else none

/-- Matcher for `\contentsline\s*\{KIND\}` with a fixed literal kind. -/
def matchContentslineKind (kind : String) (l : List Char) : Option (List Char) :=
  if startsWithL "\\contentsline".data l then
    let r1 := (l.drop 13).dropWhile pyIsSpace
    if startsWithL ('\x7b' :: kind.data ++ ['\x7d']) r1 then
      some (r1.drop (kind.data.length + 2))
    else none
  else none

/-- `tex_auxfiles._parse_float_line`. -/
def parse_float_line (line : String) (kind : String) : Option FloatEntry :=
  let tag := if kind = "figure" then "lof" else "lot"
  let pfx := ("\\@writefile\x7b" ++ tag ++ "\x7d").data
  if startsWithL pfx line.data then
    let rest := line.data.drop pfx.length
    let restAt := rest.dropWhile (fun c => c ≠ '\x7b')
    match restAt with
    | [] => none
    | _ =>
      let content := (extract_brace_content restAt).1
      if content = [] then none
      else
        match matchContentslineKind kind content with
        | none => none
        | some after =>
          let groups := extractAllBraceGroups after.length after
          match groups with
          | g0 :: g1 :: _ =>
            let r := parse_numberline g0
            some ⟨kind, r.1, r.2, parsePage g1⟩
          | _ => none
  else none

/-- Read a `{...}` group whose content must not contain `}` (the regex
class `[^}]+` / `[^}]*`); returns `(content, rest-after-closing)`. -/
def takeNoBraceGroup (allowEmpty : Bool) (l : List Char) :
    Option (List Char × List Char) :=
  match l with
  | '\x7b' :: t =>
    let content := t.takeWhile (fun x => x ≠ '\x7d')
    if content = [] ∧ ¬allowEmpty then none
    else
      match t.dropWhile (fun x => x ≠ '\x7d') with
      | '\x7d' :: tail => some (content, tail)
      | _ => none
  | _ => none

/-- `tex_auxfiles._parse_label_line`. -/
def parse_label_line (line : String) : Option LabelInfo :=
  if startsWithL "\\newlabel".data line.data then
    match takeNoBraceGroup false (line.data.drop 9) with
    | none => none
    | some (key, rest) =>
      let restAt := rest.dropWhile (fun c => c ≠ '\x7b')
      match restAt with
      | [] => none
      | _ =>
        let outer := (extract_brace_content restAt).1
        if outer = [] then none
        else
          match extractAllBraceGroups outer.length outer with
          | g0 :: g1 :: _ =>
            some ⟨⟨key⟩, clean_latex_text ⟨g0⟩, parsePage g1⟩
          | _ => none
  else none

/-- `tex_auxfiles._parse_bibcite_line`. -/
def parse_bibcite_line (line : String) : Option LabelInfo :=
  if startsWithL "\\bibcite".data line.data then
    match takeNoBraceGroup false (line.data.drop 8) with
    | none => none
    | some (key, rest) =>
      match takeNoBraceGroup false rest with
      | none => none
      | some (display, _) => some ⟨⟨key⟩, ⟨display⟩, 0⟩
  else none

/-- `tex_auxfiles._parse_abx_aux_cite_key`. -/
def parse_abx_aux_cite_key (line : String) : Option String :=
  if startsWithL "\\abx@aux@cite".data line.data then
    match takeNoBraceGroup false (line.data.drop 13) with
    | none => none
    | some (g1, rest) =>
      match takeNoBraceGroup false rest with
      | some (g2, _) => some ⟨g2⟩
      | none => some ⟨g1⟩
  else if startsWithL "\\abx@aux@segm".data line.data then
    match takeNoBraceGroup true (line.data.drop 13) with
    | none => none
    | some (_, rest) =>
      match takeNoBraceGroup true rest with
      | none => none
      | some (_, rest2) =>
        match takeNoBraceGroup false rest2 with
        | some (g3, _) => some ⟨g3⟩
        | none => none
  else none

/-! ## `tex_auxfiles.py` — public API -/

/-- One iteration of the line loop in `parse_aux_file`; the state is the
structure under construction plus the `seen_abx_keys` set. -/
def scanAuxLine (st : TexStructure × List String) (rawLine : String) :
    TexStructure × List String :=
  let s := st.1
  let seen := st.2
  let line := pyStrip rawLine
  if line = "" then st
  else if startsWithL "\\@writefile\x7btoc\x7d".data line.data then
    match parse_toc_line line with
    | some e => ({ s with toc_entries := s.toc_entries ++ [e] }, seen)
    | none => st
  else if startsWithL "\\@writefile\x7blof\x7d".data line.data then
    match parse_float_line line "figure" with
    | some e => ({ s with lof_entries := s.lof_entries ++ [e] }, seen)
    | none => st
  else if startsWithL "\\@writefile\x7blot\x7d".data line.data then
    match parse_float_line line "table" with
    | some e => ({ s with lot_entries := s.lot_entries ++ [e] }, seen)
    | none => st
  else if startsWithL "\\newlabel\x7b".data line.data then
    match parse_label_line line with
    | some info => ({ s with labels := labelsSet s.labels info.key info }, seen)
    | none => st
  else if startsWithL "\\bibcite\x7b".data line.data then
    match parse_bibcite_line line with
    | some info => ({ s with labels := labelsSet s.labels info.key info }, seen)
    | none => st
  else if startsWithL "\\abx@aux@cite".data line.data ∨
      startsWithL "\\abx@aux@segm".data line.data then
    match parse_abx_aux_cite_key line with
    | some key =>
      if key ∈ seen then st
      else ({ s with citation_order := s.citation_order ++ [key] }, seen ++ [key])
    | none => st
  else st

/-- One step of the numbering loop `for i, key in enumerate(order, start=1):
if key not in structure.labels: structure.labels[key] = LabelInfo(key,
str(i), 0)` (the pair carries the 0-based enumeration index). -/
def citeStep (ls : List (String × LabelInfo)) (p : Nat × String) :
    List (String × LabelInfo) :=
  if (labelsGet ls p.2).isSome then ls
  else labelsSet ls p.2 ⟨p.2, toString (p.1 + 1), 0⟩

/-- The numbering loop of `parse_aux_file`. -/
def assignCitationNumbers (labels : List (String × LabelInfo))
    (order : List String) : List (String × LabelInfo) :=
  (List.enumFrom 0 order).foldl citeStep labels

/-- `tex_auxfiles.parse_aux_file`, phrased over the list of lines of the
`.aux` file and the parsed `.bbl` entry order (`none` when no `.bbl` file
exists beside the `.aux`; `some []` when `_parse_bbl_entries` found no
entries). -/
def parse_aux_file (lines : List String) (bbl : Option (List String)) :
    TexStructure :=
  let scanned := (lines.foldl scanAuxLine ({}, [])).1
  match bbl with
  | some bbl_order =>
    if bbl_order ≠ [] then
      { scanned with labels := assignCitationNumbers scanned.labels bbl_order }
    else
      { scanned with
          labels := assignCitationNumbers scanned.labels scanned.citation_order }
  | none =>
    if scanned.citation_order ≠ [] then
      { scanned with
          labels := assignCitationNumbers scanned.labels scanned.citation_order }
    else scanned

/-- `TexStructure.resolve_ref`. -/
def TexStructure.resolve_ref (s : TexStructure) (key : String) : Option String :=
  (labelsGet s.labels key).map LabelInfo.display

/-- `TexStructure.resolve_citation_keys` (a falsy — empty — display string
also falls back to the raw key). -/
def TexStructure.resolve_citation_keys (s : TexStructure) (keys : List String) :
    List String :=
  keys.map (fun k =>
    match s.resolve_ref k with
    | some d => if d = "" then k else d
    | none => k)

/-- Scanning loop of `TexStructure.find_heading`
(`for i in range(self._toc_cursor, len(self.toc_entries))`), phrased over
the suffix of entries from the cursor, carrying the absolute index; returns
the matched index and entry. -/
def findHeadingScan (norm_title level : String) :
    List TocEntry → Nat → Option (Nat × TocEntry)
  | [], _ => none
  | e :: rest, i =>
    if e.level ≠ level then findHeadingScan norm_title level rest (i + 1)
    else if titles_match norm_title (normalize_for_match e.title) then
      some (i, e)
    else findHeadingScan norm_title level rest (i + 1)

/-- `TexStructure.find_heading`: sequential cursor-based scan; returns the
matched entry (if any) and the updated structure. -/
def find_heading (s : TexStructure) (title_text : String) (level : String) :
    Option TocEntry × TexStructure :=
  match findHeadingScan (normalize_for_match title_text) level
      (s.toc_entries.drop s.toc_cursor) s.toc_cursor with
  | some (i, e) => (some e, { s with toc_cursor := i + 1 })
  | none => (none, s)

/-! ## `profile.py` — numbering configuration

Only the profile fields consulted by the embedded converter functions are
carried (`numbering` and `doc_class_type`); the remaining configuration
subtrees (fonts, labels, styles, page headers, frontmatter, preprocessor)
do not influence the verified functions. -/

/-- `profile.NumberingConfig` with its built-in Chinese-academic defaults. -/
structure NumberingConfig where
  chapter_format : String := "第 \x7bn\x7d 章  \x7btitle\x7d"
  section_format : String := "\x7bchapter\x7d.\x7bsection\x7d  \x7btitle\x7d"
  subsection_format : String :=
    "\x7bchapter\x7d.\x7bsection\x7d.\x7bsubsection\x7d  \x7btitle\x7d"
  subsubsection_format : String :=
    "\x7bchapter\x7d.\x7bsection\x7d.\x7bsubsection\x7d.\x7bsubsubsection\x7d  \x7btitle\x7d"
  unnumbered_headings : List String := ["摘要", "abstract", "Abstract",
    "ABSTRACT", "致谢", "参考文献", "附录", "目录", "目  录", "References"]
  deriving DecidableEq, Repr

/-- `profile.DocxProfile` (the fields used by the embedded functions). -/
structure DocxProfile where
  numbering : NumberingConfig := {}
  doc_class_type : String := "report"
  deriving DecidableEq, Repr

/-- Python `str.format` with named placeholders, as used by the numbering
format strings (`"第 {n} 章  {title}".format(n=…, title=…)`); a placeholder
absent from the argument list is replaced by the empty string. -/
def pyFormatL (fuel : Nat) (l : List Char) (args : List (String × String)) :
    List Char :=
  match fuel, l with
  | 0, l => l
  | _, [] => []
  | fuel + 1, c :: rest =>
    if c = '\x7b' then
      let name := rest.takeWhile (fun x => x ≠ '\x7d')
      match rest.dropWhile (fun x => x ≠ '\x7d') with
      | '\x7d' :: tail =>
        (((args.find? (fun p => p.1 = (⟨name⟩ : String))).map Prod.snd).getD
          "").data ++ pyFormatL fuel tail args
      | _ => c :: pyFormatL fuel rest args
    else
      c :: pyFormatL fuel rest args

/-- Python `fmt.format(**args)`. -/
def pyFormat (fmt : String) (args : List (String × String)) : String :=
  ⟨pyFormatL fmt.data.length fmt.data args⟩

/-- `DocxProfile.format_chapter`. -/
def DocxProfile.format_chapter (p : DocxProfile) (n : Nat) (title : String) :
    String :=
  if title ∈ p.numbering.unnumbered_headings then title
  else pyFormat p.numbering.chapter_format [("n", toString n), ("title", title)]

/-- `DocxProfile.format_section`. -/
def DocxProfile.format_section (p : DocxProfile) (level : Nat) (title : String)
    (chapter sectionN subsection subsubsection : Nat) : String :=
  if title ∈ p.numbering.unnumbered_headings then title
  else
    let fmt : Option String :=
      if level = 2 then some p.numbering.section_format
      else if level = 3 then some p.numbering.subsection_format
      else if level = 4 then some p.numbering.subsubsection_format
      else none
    match fmt with
    | none => title
    | some f =>
      pyFormat f [("chapter", toString chapter), ("section", toString sectionN),
        ("subsection", toString subsection),
        ("subsubsection", toString subsubsection), ("title", title)]

/-! ## `converter.py` — heading handling

`_add_heading` mixes the numbering decision with document emission; the
decision core (display title, TOC exclusion, counter and aux-resolver state
updates) is embedded below.  The converter always owns a profile
(`self.profile = profile or DocxProfile()`), so `SectionCounters._unnumbered`
is always the profile's `numbering.unnumbered_headings` list. -/

/-- `SectionCounters.format_chapter` (profile always present). -/
def SectionCounters.format_chapter (c : SectionCounters) (profile : DocxProfile)
    (title : String) : String :=
  if title ∈ profile.numbering.unnumbered_headings then title
  else profile.format_chapter c.chapter title

/-- Result of the `_add_heading` decision core. -/
structure HeadingResult where
  display_title : String
  exclude_from_toc : Bool
  counters : SectionCounters
  tex : Option TexStructure
  deriving DecidableEq, Repr

/-- The `_level_names` mapping of `_add_heading`. -/
def levelName (doc_class_type : String) (level : Nat) : Option String :=
  if doc_class_type = "report" ∨ doc_class_type = "book" then
    if level = 1 then some "chapter"
    else if level = 2 then some "section"
    else if level = 3 then some "subsection"
    else if level = 4 then some "subsubsection"
    else none
  else
    if level = 1 then some "section"
    else if level = 2 then some "subsection"
    else if level = 3 then some "subsubsection"
    else none

/-- `LatexToDocxConverter._add_heading`, restricted to its decision core:
given the already-extracted title, compute the displayed heading text,
whether the heading is excluded from TOC numbering, and the updated
section counters and aux-resolver state. -/
def add_heading (profile : DocxProfile) (doc_class_type : String)
    (tex : Option TexStructure) (counters : SectionCounters) (level : Nat)
    (starred : Bool) (title : String) : HeadingResult :=
  let unnumbered := profile.numbering.unnumbered_headings
  let exclude := starred || title ∈ unnumbered
  if starred || title ∈ unnumbered then
    { display_title := title, exclude_from_toc := exclude,
      counters := counters, tex := tex }
  else
    let texLookup : Option TocEntry × Option TexStructure :=
      match tex with
      | none => (none, tex)
      | some ts =>
        match levelName doc_class_type level with
        | none => (none, tex)
        | some ln =>
          let r := find_heading ts title ln
          (r.1, some r.2)
    match texLookup with
    | (some e, tex') =>
      { display_title := e.full_title, exclude_from_toc := exclude,
        counters := (counters.increment level).1, tex := tex' }
    | (none, tex') =>
      if level = 1 ∧ (doc_class_type = "report" ∨ doc_class_type = "book") then
        let c' := (counters.increment 1).1
        { display_title := c'.format_chapter profile title,
          exclude_from_toc := exclude, counters := c', tex := tex' }
      else if level ≥ 2 then
        let r := counters.increment level
        let display :=
          match r.2 with
          | some _ =>
            profile.format_section level title r.1.chapter r.1.«section»
              r.1.subsection r.1.subsubsection
          | none => title
        { display_title := display, exclude_from_toc := exclude,
          counters := r.1, tex := tex' }
      else
        let r := counters.increment level
        let display :=
          match r.2 with
          | some _ =>
            profile.format_section level title r.1.chapter r.1.«section»
              r.1.subsection r.1.subsubsection
          | none => title
        { display_title := display, exclude_from_toc := exclude,
          counters := r.1, tex := tex' }

/-! ## `converter.py` — footnotes and `__init__._inject_footnotes_part` -/

/-- The footnote-related converter state: `_footnote_count`, `_footnotes`,
and the ids of the reference markers emitted into the document body. -/
structure FootnoteState where
  footnote_count : Nat := 0
  footnotes : List (Nat × String) := []
  markers : List Nat := []
  deriving DecidableEq, Repr

/-- `LatexToDocxConverter._handle_footnote`, given the text already
extracted from the argument group by `_tokens_to_text`: empty (after
`strip`) notes are dropped before any id is assigned. -/
def handle_footnote (st : FootnoteState) (raw_text : String) : FootnoteState :=
  let note_text := pyStrip raw_text
  if note_text = "" then st
  else
    let fid := st.footnote_count + 1
    { footnote_count := fid,
      footnotes := st.footnotes ++ [(fid, note_text)],
      markers := st.markers ++ [fid] }

/-- Process a document's footnote commands in order. -/
def runFootnotes (texts : List String) : FootnoteState :=
  texts.foldl handle_footnote {}

/-- An OOXML package as a map from part name to raw bytes. -/
def Package := List (String × String)

/-- The rewritten parts produced by the injection body (footnotes part,
content-type override, relationship entry); the XML construction itself is
external-library plumbing and is abstracted as a marker rewrite. -/
def injectedParts (pkg : Package) (footnotes : List (Nat × String)) : Package :=
  (pkg.map (fun p =>
    if p.1 = "[Content_Types].xml" ∨ p.1 = "word/_rels/document.xml.rels" then
      (p.1, p.2 ++ "+footnotes")
    else p)) ++
    [("word/footnotes.xml", String.intercalate ";"
      (footnotes.map (fun f => toString f.1 ++ ":" ++ f.2)))]

/-- `latex2docx._inject_footnotes_part`: with no collected footnotes the
saved package is returned untouched (`if not footnotes: return`). -/
def inject_footnotes_part (pkg : Package) (footnotes : List (Nat × String)) :
    Package :=
  if footnotes = [] then pkg else injectedParts pkg footnotes

/-! ## `converter.py` — format-state stack

`FormatState` and the projection of the converter's recursive token
processing onto the pair (remaining token stream, format stack).  Document
emission (`_add_run` etc.) reads the stack top but never changes the stack,
so it is dropped from the projection; every token-consumption and every
stack push/pop of `_process_inline_tokens`, `_handle_command`,
`_handle_inline_format` and `_handle_font_switch` is kept. -/

/-- `converter.FormatState`. -/
structure FormatState where
  bold : Bool := false
  italic : Bool := false
  underline : Bool := false
  font_name : Option String := none
  font_size : Option Nat := none
  superscript : Bool := false
  subscript : Bool := false
  color : Option String := none
  url : Option String := none
  deriving DecidableEq, Repr

/-- `_skip_whitespace` on a token stream. -/
def skipWsT (ts : List Token) : List Token :=
  ts.dropWhile (fun t => t.type = TokenType.WHITESPACE)

/-- Scanning core of `_read_brace_group_tokens` after the opening brace. -/
def rbgtAux : List Token → Nat → (List Token × List Token)
  | [], _ => ([], [])
  | t :: rest, depth =>
    if t.type = TokenType.BRACE_OPEN then
      let r := rbgtAux rest (depth + 1)
      (t :: r.1, r.2)
    else if t.type = TokenType.BRACE_CLOSE then
      if depth = 1 then ([], rest)
      else
        let r := rbgtAux rest (depth - 1)
        (t :: r.1, r.2)
    else
      let r := rbgtAux rest depth
      (t :: r.1, r.2)

/-- `LatexToDocxConverter._read_brace_group_tokens`: returns the tokens
inside the group and the remaining stream. -/
def readBraceGroupTokens (ts : List Token) : List Token × List Token :=
  let ts1 := skipWsT ts
  match ts1 with
  | t :: rest =>
    if t.type = TokenType.BRACE_OPEN then rbgtAux rest 1 else ([], ts1)
  | [] => ([], [])

/-- Scanning core of `_read_brace_group` (text form). -/
def rbgAux : List Token → Nat → (String × List Token)
  | [], _ => ("", [])
  | t :: rest, depth =>
    if t.type = TokenType.BRACE_OPEN then
      let r := rbgAux rest (depth + 1)
      ("\x7b" ++ r.1, r.2)
    else if t.type = TokenType.BRACE_CLOSE then
      if depth = 1 then ("", rest)
      else
        let r := rbgAux rest (depth - 1)
        ("\x7d" ++ r.1, r.2)
    else if t.type = TokenType.COMMAND then
      let r := rbgAux rest depth
      ("\\" ++ t.name ++ r.1, r.2)
    else
      let r := rbgAux rest depth
      (t.value ++ r.1, r.2)

/-- `LatexToDocxConverter._read_brace_group`. -/
def readBraceGroup (ts : List Token) : String × List Token :=
  let ts1 := skipWsT ts
  match ts1 with
  | t :: rest =>
    if t.type = TokenType.BRACE_OPEN then rbgAux rest 1 else ("", ts1)
  | [] => ("", [])

/-- Scanning core of `_read_optional_arg` after the opening bracket; note
that every non-bracket token — including brace tokens — is consumed. -/
def roaAux : List Token → Nat → (String × List Token)
  | [], _ => ("", [])
  | t :: rest, depth =>
    if t.type = TokenType.BRACKET_OPEN then
      let r := roaAux rest (depth + 1)
      ("[" ++ r.1, r.2)
    else if t.type = TokenType.BRACKET_CLOSE then
      if depth = 1 then ("", rest)
      else
        let r := roaAux rest (depth - 1)
        ("]" ++ r.1, r.2)
    else
      let r := roaAux rest depth
      (t.value ++ r.1, r.2)

/-- `LatexToDocxConverter._read_optional_arg`. -/
def readOptionalArg (ts : List Token) : Option String × List Token :=
  let ts1 := skipWsT ts
  match ts1 with
  | t :: rest =>
    if t.type = TokenType.BRACKET_OPEN then
      let r := roaAux rest 1
      (some r.1, r.2)
    else (none, ts1)
  | [] => (none, [])

/-- The `while self._read_optional_arg() is not None: pass` loop of the
citation handler. -/
def consumeOptionalArgs (fuel : Nat) (ts : List Token) : List Token :=
  match fuel with
  | 0 => ts
  | fuel + 1 =>
    match readOptionalArg ts with
    | (some _, ts') => consumeOptionalArgs fuel ts'
    | (none, ts') => ts'

/-- `converter._SKIP_COMMANDS` (argument-free commands silently skipped). -/
def SKIP_COMMANDS : List String := [
  "centering", "noindent", "raggedright", "raggedleft",
  "normalfont", "selectfont", "bfseries", "itshape",
  "upshape", "mdseries", "rmfamily", "sffamily", "ttfamily",
  "normalsize", "small", "footnotesize", "scriptsize", "tiny",
  "large", "Large", "LARGE", "huge", "Huge",
  "frontmatter", "mainmatter", "backmatter",
  "onehalfspacing", "doublespacing", "singlespacing",
  "protect", "relax", "indent", "par",
  "bigskip", "medskip", "smallskip",
  "vfill", "hfill", "dotfill", "hrulefill",
  "strut", "null", "phantom",
  "maketitle", "MAKETITLE", "makedeclaration",
  "appendix"]

/-- `converter._SKIP_WITH_ARG`. -/
def SKIP_WITH_ARG : List String := [
  "pagestyle", "thispagestyle", "pagenumbering",
  "setlength", "addtolength", "setcounter", "addtocounter",
  "linespread", "bibliographystyle",
  "hypersetup", "captionsetup",
  "renewcommand", "newcommand", "providecommand",
  "DeclareCaptionFont",
  "newgeometry", "restoregeometry",
  "fancyhead", "fancyfoot", "fancyhf",
  "titleformat", "titlespacing", "titlecontents",
  "intobmk"]

/-- The default `cjk_font_commands` map of `FontsConfig` (command → font);
font names use the deployment fontset, irrelevant to stack behaviour. -/
def cjkFontCommands : List (String × String) :=
  [("heiti", "SimHei"), ("songti", "SimSun"), ("kaiti", "KaiTi"),
   ("fangsong", "FangSong")]

/-- Heading command names dispatched to `_add_heading`. -/
def headingCommands : List String := [
  "chapter", "chapter*", "section", "section*",
  "subsection", "subsection*", "subsubsection", "subsubsection*"]

/-- Citation command names. -/
def citeCommands : List String := [
  "cite", "citep", "citet", "citealt", "citealp", "citenum",
  "parencite", "textcite"]

/-- The format-stack interpreter: `_process_inline_tokens` together with the
stack- and stream-relevant branches of `_handle_command`.  The stack is a
`List FormatState` with the head as the Python list end (`append` = cons,
`pop()` = `tail`, `[-1]` = `headD`).  The returned `Nat` is the minimum
stack length observed over the whole run, including every recursive
reprocessing of a brace group; the spec invariant asserts it never
reaches 0.  Fueled (each step consumes at least one token, so any fuel
of at least the token count is exact). -/
def piProcess (fuel : Nat) (stack : List FormatState) (ts : List Token) :
    List FormatState × Nat :=
  match fuel with
  | 0 => (stack, stack.length)
  | fuel + 1 =>
    match ts with
    | [] => (stack, stack.length)
    | t :: rest =>
      if t.type = TokenType.TEXT ∨ t.type = TokenType.WHITESPACE ∨
          t.type = TokenType.MATH_INLINE ∨ t.type = TokenType.MATH_DISPLAY then
        let r := piProcess fuel stack rest
        (r.1, min stack.length r.2)
      else if t.type = TokenType.BRACE_OPEN then
        let stack' := stack.headD {} :: stack
        let r := piProcess fuel stack' rest
        (r.1, min stack.length r.2)
      else if t.type = TokenType.BRACE_CLOSE then
        let stack' := if stack.length > 1 then stack.tail else stack
        let r := piProcess fuel stack' rest
        (r.1, min stack.length r.2)
      else if t.type = TokenType.COMMAND then
        let name := t.name
        -- _handle_inline_format: push a merged state, reprocess the brace
        -- group, then pop unguarded.
        let inlineFormat := fun (merged : FormatState) =>
          let pushed := merged :: stack
          let g := readBraceGroupTokens rest
          let inner := piProcess fuel pushed g.1
          let popped := inner.1.tail
          let r := piProcess fuel popped g.2
          (r.1, min stack.length (min inner.2 (min popped.length r.2)))
        -- consume one brace group (text form), no stack change
        let consumeGroup :=
          let g := readBraceGroup rest
          let r := piProcess fuel stack g.2
          (r.1, min stack.length r.2)
        let top := stack.headD {}
        if name ∈ headingCommands then
          let g := readBraceGroupTokens rest
          let r := piProcess fuel stack g.2
          (r.1, min stack.length r.2)
        else if name = "textbf" then inlineFormat { top with bold := true }
        else if name = "textit" ∨ name = "emph" then
          inlineFormat { top with italic := true }
        else if name = "underline" then inlineFormat { top with underline := true }
        else if name = "textsuperscript" then
          inlineFormat { top with superscript := true }
        else if name = "textsubscript" then
          inlineFormat { top with subscript := true }
        else if name = "texttt" then
          inlineFormat { top with font_name := some "Courier New" }
        else if name = "textrm" ∨ name = "text" then inlineFormat top
        else if (symbolLookup name).isSome then
          let r := piProcess fuel stack rest
          (r.1, min stack.length r.2)
        else if name = "quad" ∨ name = "qquad" ∨ name = "enspace" ∨
            name = "thinspace" ∨ name = "," then
          let r := piProcess fuel stack rest
          (r.1, min stack.length r.2)
        else if ((cjkFontCommands.find? (fun p => p.1 = name)).isSome) then
          -- _handle_font_switch
          let font := ((cjkFontCommands.find? (fun p => p.1 = name)).map
            Prod.snd).getD ""
          let rest1 := skipWsT rest
          match rest1 with
          | t1 :: _ =>
            if t1.type = TokenType.BRACE_OPEN then
              let pushed := { top with font_name := some font } :: stack
              let g := readBraceGroupTokens rest1
              let inner := piProcess fuel pushed g.1
              let popped := inner.1.tail
              let r := piProcess fuel popped g.2
              (r.1, min stack.length (min inner.2 (min popped.length r.2)))
            else
              -- mutate the current top in place
              let stack' := { top with font_name := some font } :: stack.tail
              let r := piProcess fuel stack' rest1
              (r.1, min stack.length r.2)
          | [] =>
            let stack' := { top with font_name := some font } :: stack.tail
            let r := piProcess fuel stack' []
            (r.1, min stack.length r.2)
        else if name = "newpage" ∨ name = "clearpage" ∨
            name = "cleardoublepage" then
          let r := piProcess fuel stack rest
          (r.1, min stack.length r.2)
        else if name = "caption" ∨ name = "label" ∨ name = "ref" ∨
            name = "eqref" ∨ name = "pageref" then
          consumeGroup
        else if name ∈ citeCommands then
          let rest1 := consumeOptionalArgs rest.length rest
          let g := readBraceGroup rest1
          let r := piProcess fuel stack g.2
          (r.1, min stack.length r.2)
        else if name = "autoref" ∨ name = "cref" ∨ name = "Cref" ∨
            name = "bibliography" ∨ name = "keywords" ∨ name = "KEYWORDS" then
          consumeGroup
        else if name = "footnote" then
          let g := readBraceGroupTokens rest
          let r := piProcess fuel stack g.2
          (r.1, min stack.length r.2)
        else if name = "url" then consumeGroup
        else if name = "href" then
          let g1 := readBraceGroup rest
          let g2 := readBraceGroup g1.2
          let r := piProcess fuel stack g2.2
          (r.1, min stack.length r.2)
        else if name = "includegraphics" then
          let a := readOptionalArg rest
          let g := readBraceGroup a.2
          let r := piProcess fuel stack g.2
          (r.1, min stack.length r.2)
        else if name = "tableofcontents" ∨ name = "listoffigures" ∨
            name = "listoftables" then
          let r := piProcess fuel stack rest
          (r.1, min stack.length r.2)
        else if name = "vspace" ∨ name = "hspace" then
          let a := readOptionalArg rest
          let g := readBraceGroup a.2
          let r := piProcess fuel stack g.2
          (r.1, min stack.length r.2)
        else if name = "fontsize" then
          let g1 := readBraceGroup rest
          let g2 := readBraceGroup g1.2
          let r := piProcess fuel stack g2.2
          (r.1, min stack.length r.2)
        else if name ∈ SKIP_COMMANDS then
          let r := piProcess fuel stack rest
          (r.1, min stack.length r.2)
        else if name ∈ SKIP_WITH_ARG then
          let a := readOptionalArg rest
          let g1 := readBraceGroup a.2
          let afterSecond :=
            if name = "setlength" ∨ name = "addtolength" ∨
                name = "renewcommand" ∨ name = "newcommand" ∨
                name = "providecommand" ∨ name = "setcounter" ∨
                name = "addtocounter" ∨ name = "DeclareCaptionFont" then
              (readBraceGroup g1.2).2
            else g1.2
          let afterThird :=
            if name = "newcommand" ∨ name = "providecommand" then
              (readBraceGroup (readOptionalArg afterSecond).2).2
            else afterSecond
          let r := piProcess fuel stack afterThird
          (r.1, min stack.length r.2)
        else if name = "usepackage" ∨ name = "documentclass" then
          let a := readOptionalArg rest
          let g := readBraceGroup a.2
          let r := piProcess fuel stack g.2
          (r.1, min stack.length r.2)
        else if name = "input" ∨ name = "include" then consumeGroup
        else if name = "multicolumn" then
          let g1 := readBraceGroup rest
          let g2 := readBraceGroup g1.2
          let g3 := readBraceGroup g2.2
          let r := piProcess fuel stack g3.2
          (r.1, min stack.length r.2)
        else
          -- unknown command: consume its brace group (if any) and reprocess
          -- it inline with the *current* stack (no push/pop).
          let rest1 := skipWsT rest
          match rest1 with
          | t1 :: _ =>
            if t1.type = TokenType.BRACE_OPEN then
              let g := readBraceGroupTokens rest1
              let inner := piProcess fuel stack g.1
              let r := piProcess fuel inner.1 g.2
              (r.1, min stack.length (min inner.2 r.2))
            else
              let r := piProcess fuel stack rest1
              (r.1, min stack.length r.2)
          | [] => (stack, stack.length)
      else
        let r := piProcess fuel stack rest
        (r.1, min stack.length r.2)

/-! ## Tokenizer

Modelled from the spec: the module `latex2docx/tokenizer.py` (imported by
the converter and the table builder as `.tokenizer`) is not part of the
source tree, so the tokenizer is reconstructed from spec §4.1: commands
(letter sequences after the escape character plus single-character
commands), environment begin/end, brace/bracket open/close tokens, math
delimiters (`$...$` inline, `$$...$$` display), paragraph breaks (blank
lines) distinct from ordinary whitespace, comments, table rule commands and
separators, list-item markers with optional custom label, and a TEXT
fallback — with every character of the input accounted for by some token's
raw value. -/

/-- Characters that terminate a TEXT run. -/
def isSpecialChar (c : Char) : Bool :=
  c = '\\' || c = '\x7b' || c = '\x7d' || c = '[' || c = ']' || c = '$' ||
    c = '%' || c = '&' || pyIsSpace c

/-- Number of newline characters in a chunk. -/
def countNewlines (l : List Char) : Nat :=
  (l.filter (fun c => c = '\n')).length

/-- Split at the first occurrence of `$$`: returns the characters before it
and the characters after it. -/
def findDoubleDollar : List Char → Option (List Char × List Char)
  | [] => none
  | c :: t =>
    if c = '$' ∧ t.head? = some '$' then some ([], t.tail)
    else (findDoubleDollar t).map (fun p => (c :: p.1, p.2))

/-- Split at the first occurrence of the closing delimiter: returns the
characters before it and the characters after it, or `none` when the
delimiter does not occur. -/
def delimSuffix (close : Char) (t : List Char) : Option (List Char × List Char) :=
  match t.dropWhile (fun x => x ≠ close) with
  | _ :: tail => some (t.takeWhile (fun x => x ≠ close), tail)
  | [] => none

/-- One raw token: the consumed characters, the token classification, and
the remaining input. -/
structure RawTok where
  raw : List Char
  type : TokenType
  name : String := ""
  content : String := ""
  label : Option String := none
  rest : List Char
  deriving Repr

/-- Classify an escape sequence `\letters` (the letters are nonempty):
environment delimiters, table rules, list items (with optional `[label]`),
or a plain command.  Unrecognized names still tokenize as COMMAND. -/
def nextTokCommand (letters after : List Char) : RawTok :=
  let nameStr : String := ⟨letters⟩
  if nameStr = "begin" ∨ nameStr = "end" then
    if after.head? = some '\x7b' then
      match delimSuffix '\x7d' after.tail with
      | some p =>
        { raw := '\\' :: letters ++ '\x7b' :: (p.1 ++ ['\x7d']),
          type := if nameStr = "begin" then .ENV_BEGIN else .ENV_END,
          name := ⟨p.1⟩,
          rest := p.2 }
      | none =>
        { raw := '\\' :: letters, type := .COMMAND, name := nameStr,
          rest := after }
    else
      { raw := '\\' :: letters, type := .COMMAND, name := nameStr,
        rest := after }
  else if nameStr = "hline" then
    { raw := '\\' :: letters, type := .HLINE, rest := after }
  else if nameStr = "toprule" then
    { raw := '\\' :: letters, type := .TOPRULE, rest := after }
  else if nameStr = "midrule" then
    { raw := '\\' :: letters, type := .MIDRULE, rest := after }
  else if nameStr = "bottomrule" then
    { raw := '\\' :: letters, type := .BOTTOMRULE, rest := after }
  else if nameStr = "cmidrule" then
    { raw := '\\' :: letters, type := .CMIDRULE, rest := after }
  else if nameStr = "item" then
    if after.head? = some '[' then
      match delimSuffix ']' after.tail with
      | some p =>
        { raw := '\\' :: letters ++ '[' :: (p.1 ++ [']']),
          type := .ITEM,
          label := some ⟨p.1⟩,
          rest := p.2 }
      | none => { raw := '\\' :: letters, type := .ITEM, rest := after }
    else { raw := '\\' :: letters, type := .ITEM, rest := after }
  else
    { raw := '\\' :: letters, type := .COMMAND, name := nameStr, rest := after }

/-- Scan one token at the head of the input (`c` is the first character). -/
def nextTok (c : Char) (rest : List Char) : RawTok :=
  if c = '%' then
    { raw := c :: rest.takeWhile (fun x => x ≠ '\n'), type := .COMMENT,
      rest := rest.dropWhile (fun x => x ≠ '\n') }
  else if pyIsSpace c then
    let ws := rest.takeWhile pyIsSpace
    { raw := c :: ws,
      type := if countNewlines (c :: ws) ≥ 2 then .PAR_BREAK else .WHITESPACE,
      rest := rest.dropWhile pyIsSpace }
  else if c = '\\' then
    match rest with
    | [] => { raw := [c], type := .COMMAND, rest := [] }
    | d :: rest2 =>
      if d.isAlpha then
        nextTokCommand (rest.takeWhile Char.isAlpha)
          (rest.dropWhile Char.isAlpha)
      else if d = '\\' then
        { raw := [c, d], type := .NEWLINE_CMD, rest := rest2 }
      else
        { raw := [c, d], type := .COMMAND, name := ⟨[d]⟩, rest := rest2 }
  else if c = '$' then
    if rest.head? = some '$' then
      match findDoubleDollar rest.tail with
      | some p =>
        { raw := '$' :: '$' :: (p.1 ++ ['$', '$']), type := .MATH_DISPLAY,
          content := ⟨p.1⟩, rest := p.2 }
      | none =>
        { raw := '$' :: '$' :: rest.tail, type := .MATH_DISPLAY,
          content := ⟨rest.tail⟩, rest := [] }
    else
      match delimSuffix '$' rest with
      | some p =>
        { raw := c :: (p.1 ++ ['$']), type := .MATH_INLINE,
          content := ⟨p.1⟩, rest := p.2 }
      | none =>
        { raw := c :: rest, type := .MATH_INLINE, content := ⟨rest⟩,
          rest := [] }
  else if c = '\x7b' then { raw := [c], type := .BRACE_OPEN, rest := rest }
  else if c = '\x7d' then { raw := [c], type := .BRACE_CLOSE, rest := rest }
  else if c = '[' then { raw := [c], type := .BRACKET_OPEN, rest := rest }
  else if c = ']' then { raw := [c], type := .BRACKET_CLOSE, rest := rest }
  else if c = '&' then { raw := [c], type := .AMPERSAND, rest := rest }
  else
    { raw := c :: rest.takeWhile (fun x => ¬ isSpecialChar x = true),
      type := .TEXT,
      rest := rest.dropWhile (fun x => ¬ isSpecialChar x = true) }

/-- Turn a `RawTok` into a `Token` (the raw characters become `value`). -/
def RawTok.toToken (r : RawTok) : Token :=
  { type := r.type, value := ⟨r.raw⟩, name := r.name, content := r.content,
    label := r.label }

/-- The tokenizer loop.  Every step consumes at least one character, so any
fuel of at least the input length is exact; should fuel ever run out the
whole remainder is emitted as one TEXT token, so coverage of the input is
unconditional. -/
def tokenizeL (fuel : Nat) (cs : List Char) : List Token :=
  match fuel, cs with
  | _, [] => []
  | 0, cs => [{ type := .TEXT, value := ⟨cs⟩ }]
  | fuel + 1, c :: rest =>
    let r := nextTok c rest
    r.toToken :: tokenizeL fuel r.rest

/-- Tokenize a LaTeX source string. -/
def tokenize (s : String) : List Token :=
  tokenizeL s.data.length s.data

/-! ## Support definitions for the statements below -/

/-- Read a counter by its level number (1 = chapter … 4 = subsubsection). -/
def counterGet (c : SectionCounters) (i : Nat) : Nat :=
  if i = 1 then c.chapter
  else if i = 2 then c.«section»
  else if i = 3 then c.subsection
  else if i = 4 then c.subsubsection
  else 0

/-- The structure built by the line-scanning loop of `parse_aux_file`,
before the citation-numbering pass. -/
def scanAuxLines (lines : List String) : TexStructure :=
  (lines.foldl scanAuxLine ({}, [])).1

/-- Token stream of the LaTeX fragment `\textbf{\cite[{]{k} }}` (a stray
opening brace inside the citation's optional argument), used to exercise
the format-stack invariant. -/
def strayBraceTokens : List Token := [
  { type := TokenType.COMMAND, value := "\\textbf", name := "textbf" },
  { type := TokenType.BRACE_OPEN, value := "\x7b" },
  { type := TokenType.COMMAND, value := "\\cite", name := "cite" },
  { type := TokenType.BRACKET_OPEN, value := "[" },
  { type := TokenType.BRACE_OPEN, value := "\x7b" },
  { type := TokenType.BRACKET_CLOSE, value := "]" },
  { type := TokenType.BRACE_OPEN, value := "\x7b" },
  { type := TokenType.TEXT, value := "k" },
  { type := TokenType.BRACE_CLOSE, value := "\x7d" },
  { type := TokenType.WHITESPACE, value := " " },
  { type := TokenType.BRACE_CLOSE, value := "\x7d" },
  { type := TokenType.BRACE_CLOSE, value := "\x7d" }]

/-! ## Helper lemmas -/

theorem mem_removeChar {x c : Char} {l : List Char} (h : x ∈ removeChar c l) :
    x ∈ l :=
  (List.mem_filter.mp h).1

theorem not_mem_removeChar_self (c : Char) (l : List Char) :
    c ∉ removeChar c l := by
  intro h
  simpa using (List.mem_filter.mp h).2

theorem mem_pyStripL {x : Char} {l : List Char} (h : x ∈ pyStripL l) : x ∈ l := by
  unfold pyStripL at h
  rw [List.mem_reverse] at h
  have h2 := (List.dropWhile_sublist pyIsSpace).mem h
  rw [List.mem_reverse] at h2
  exact (List.dropWhile_sublist pyIsSpace).mem h2

/-! ## C4 — border-style detection -/

/-- C4: `detect_border_style` returns `"three_line"` whenever any
professional-rule (booktabs toprule/midrule/bottomrule) token is present,
regardless of column spec; otherwise `"grid"` when an `\hline` token is
present and the column spec contains a pipe; otherwise `"hline_only"` when
an `\hline` token is present without any pipe; and `"none"` when neither
kind of rule token is present. -/
theorem C4_detect_border_style (tokens : List Token) (col_spec : String) :
    (tokens.any (fun t => t.type = TokenType.TOPRULE ||
        t.type = TokenType.MIDRULE || t.type = TokenType.BOTTOMRULE) = true →
      detect_border_style tokens col_spec = { style := "three_line" }) ∧
    (tokens.any (fun t => t.type = TokenType.TOPRULE ||
        t.type = TokenType.MIDRULE || t.type = TokenType.BOTTOMRULE) = false →
      tokens.any (fun t => t.type = TokenType.HLINE) = true →
      pyInStr "|" col_spec = true →
      detect_border_style tokens col_spec = { style := "grid" }) ∧
    (tokens.any (fun t => t.type = TokenType.TOPRULE ||
        t.type = TokenType.MIDRULE || t.type = TokenType.BOTTOMRULE) = false →
      tokens.any (fun t => t.type = TokenType.HLINE) = true →
      pyInStr "|" col_spec = false →
      detect_border_style tokens col_spec = { style := "hline_only" }) ∧
    (tokens.any (fun t => t.type = TokenType.TOPRULE ||
        t.type = TokenType.MIDRULE || t.type = TokenType.BOTTOMRULE) = false →
      tokens.any (fun t => t.type = TokenType.HLINE) = false →
      detect_border_style tokens col_spec = { style := "none" }) := by
  refine ⟨fun h1 => by simp [detect_border_style, h1],
    fun h1 h2 h3 => by simp [detect_border_style, h1, h2, h3],
    fun h1 h2 h3 => by simp [detect_border_style, h1, h2, h3],
    fun h1 h2 => by simp [detect_border_style, h1, h2]⟩

/-- Witness for C4 at the concrete tables of the spec's test scenarios. -/
theorem C4_witness :
    detect_border_style [{ type := TokenType.TOPRULE }] "lcr" =
      { style := "three_line" } ∧
    detect_border_style [{ type := TokenType.HLINE }] "|l|c|r|" =
      { style := "grid" } ∧
    detect_border_style [{ type := TokenType.HLINE }] "lcr" =
      { style := "hline_only" } ∧
    detect_border_style [{ type := TokenType.TEXT, value := "x" }] "|l|" =
      { style := "none" } :=
  ⟨(C4_detect_border_style _ _).1 (by decide),
   (C4_detect_border_style _ _).2.1 (by decide) (by decide) (by decide),
   (C4_detect_border_style _ _).2.2.1 (by decide) (by decide) (by decide),
   (C4_detect_border_style _ _).2.2.2 (by decide) (by decide)⟩

/-! ## C5 — section counters -/

/-- C5: `SectionCounters.increment(N)` always resets the counters of all
levels deeper than `N` to zero, leaves shallower levels unchanged, and
increments level `N` itself; in particular, from chapter=1, section=2,
`increment(1)` yields chapter=2 with all deeper counters zero. -/
theorem C5_increment_resets :
    (∀ (c : SectionCounters) (level i : Nat), 1 ≤ level → level ≤ 4 →
      1 ≤ i → i ≤ 4 →
      (level < i → counterGet (c.increment level).1 i = 0) ∧
      (i < level → counterGet (c.increment level).1 i = counterGet c i) ∧
      (i = level → counterGet (c.increment level).1 i = counterGet c i + 1)) ∧
    (SectionCounters.increment ⟨1, 2, 0, 0⟩ 1).1 = ⟨2, 0, 0, 0⟩ := by
  constructor
  · intro c level i h1 h2 h3 h4
    interval_cases level <;> interval_cases i <;>
      simp [SectionCounters.increment, counterGet]
  · rfl

/-- Witness for C5: incrementing level 1 from chapter=1, section=2 zeroes
the section counter. -/
theorem C5_witness :
    counterGet (SectionCounters.increment ⟨1, 2, 0, 0⟩ 1).1 2 = 0 :=
  (C5_increment_resets.1 ⟨1, 2, 0, 0⟩ 1 2 (by decide) (by decide) (by decide)
    (by decide)).1 (by decide)

/-! ## C6 — unnumbered headings -/

/-- C6: for every heading whose title is in the active profile's
unnumbered-heading set, the computed heading text equals the raw title with
no number prefix, at every level, for every profile and document class; the
heading consults no aux-resolver state, leaves the counters untouched, and
is excluded from TOC-style numbering. -/
theorem C6_unnumbered_heading (profile : DocxProfile) (dct : String)
    (tex : Option TexStructure) (counters : SectionCounters) (level : Nat)
    (starred : Bool) (title : String)
    (h : title ∈ profile.numbering.unnumbered_headings) :
    (add_heading profile dct tex counters level starred title).display_title =
      title ∧
    (add_heading profile dct tex counters level starred title).exclude_from_toc =
      true ∧
    (add_heading profile dct tex counters level starred title).tex = tex ∧
    (add_heading profile dct tex counters level starred title).counters =
      counters := by
  simp [add_heading, h]

/-- Witness for C6 at the default profile with the unnumbered title 摘要. -/
theorem C6_witness :
    (add_heading {} "report" none {} 1 false "摘要").display_title = "摘要" ∧
    (add_heading {} "report" none {} 1 false "摘要").exclude_from_toc = true ∧
    (add_heading {} "report" none {} 1 false "摘要").tex = none ∧
    (add_heading {} "report" none {} 1 false "摘要").counters = {} :=
  C6_unnumbered_heading {} "report" none {} 1 false "摘要" (by decide)

/-! ## C7 — math fallback -/

/-- C7: adding a math fragment never raises — when the translation path
fails (returns `none`) at any step, `add_math_to_paragraph` falls back to a
styled text run whose text substitutes every known macro by its Unicode
symbol and contains none of the grouping braces or sub/superscript markers
`{`, `}`, `^`, `_`. -/
theorem C7_math_fallback :
    (∀ (translate : String → Option String) (s : String) (display : Bool),
      translate s = none →
      add_math_to_paragraph translate s display =
        .fallbackRun (latex_math_to_text s) "Cambria Math" true
          (if display then 12 else 11)) ∧
    (∀ s : String,
      '\x7b' ∉ (latex_math_to_text s).data ∧
      '\x7d' ∉ (latex_math_to_text s).data ∧
      '^' ∉ (latex_math_to_text s).data ∧
      '_' ∉ (latex_math_to_text s).data) ∧
    (∀ p ∈ SYMBOL_MAP, latex_math_to_text ("\\" ++ p.1) = p.2) := by
  refine ⟨fun translate s display h => ?_, fun s => ?_, by decide⟩
  · simp [add_math_to_paragraph, h]
  · have hdata : (latex_math_to_text s).data =
        pyStripL (removeChar '_' (removeChar '^' (removeChar '\x7d'
          (removeChar '\x7b' (removeChar '\\'
            (mathCmdSub s.data.length s.data)))))) := rfl
    rw [hdata]
    refine ⟨fun h => ?_, fun h => ?_, fun h => ?_, fun h => ?_⟩
    · exact not_mem_removeChar_self '\x7b' _
        (mem_removeChar (mem_removeChar (mem_removeChar (mem_pyStripL h))))
    · exact not_mem_removeChar_self '\x7d' _
        (mem_removeChar (mem_removeChar (mem_pyStripL h)))
    · exact not_mem_removeChar_self '^' _ (mem_removeChar (mem_pyStripL h))
    · exact not_mem_removeChar_self '_' _ (mem_pyStripL h)

/-- Witness for C7: a failing translation of `x^2` degrades to the stripped
styled text. -/
theorem C7_witness :
    add_math_to_paragraph (fun _ => none) "x^2" false =
      .fallbackRun (latex_math_to_text "x^2") "Cambria Math" true 11 :=
  C7_math_fallback.1 (fun _ => none) "x^2" false rfl

/-! ## C9 — format-stack invariant -/

/-- C9: the format-state stack does empty.  Processing the token stream of
the fragment `\textbf\x7b\cite[\x7b]\x7bk\x7d \x7d\x7d` from the
converter's initial singleton stack ends with an empty format stack and a
minimum observed stack length of zero: the stray opening brace inside the
citation's optional argument is consumed by `_read_optional_arg`, the later
guarded pop removes the state pushed by `textbf`, and the unguarded
`pop()` of `_handle_inline_format` then empties the stack. -/
theorem C9_stack_empties :
    (piProcess 64 [{}] strayBraceTokens).1 = [] ∧
    (piProcess 64 [{}] strayBraceTokens).2 = 0 := by decide

/-! ## C10 — footnotes -/

theorem range'_concat_one (n : Nat) :
    List.range' 1 n ++ [n + 1] = List.range' 1 (n + 1) := by
  rw [List.range'_concat]
  simp [Nat.add_comm]

theorem runFootnotes_aux (texts : List String) :
    ∀ st : FootnoteState,
      st.footnotes.map Prod.fst = List.range' 1 st.footnotes.length →
      st.footnote_count = st.footnotes.length →
      (texts.foldl handle_footnote st).footnotes.map Prod.fst =
          List.range' 1 (texts.foldl handle_footnote st).footnotes.length ∧
        (texts.foldl handle_footnote st).footnotes.map Prod.snd =
          st.footnotes.map Prod.snd ++
            (texts.map pyStrip).filter (fun t => t ≠ "") ∧
        (texts.foldl handle_footnote st).footnote_count =
          (texts.foldl handle_footnote st).footnotes.length := by
  induction texts with
  | nil => intro st h1 h2; simpa using ⟨h1, h2⟩
  | cons t rest ih =>
    intro st h1 h2
    by_cases ht : pyStrip t = ""
    · have hstep : handle_footnote st t = st := by
        simp [handle_footnote, ht]
      simpa [hstep, ht] using ih st h1 h2
    · have hstep : handle_footnote st t =
          { footnote_count := st.footnote_count + 1,
            footnotes := st.footnotes ++ [(st.footnote_count + 1, pyStrip t)],
            markers := st.markers ++ [st.footnote_count + 1] } := by
        simp [handle_footnote, ht]
      have h1' : (handle_footnote st t).footnotes.map Prod.fst =
          List.range' 1 (handle_footnote st t).footnotes.length := by
        rw [hstep]
        simp only [List.map_append, List.length_append, h1, h2,
          List.map_cons, List.map_nil, List.length_map]
        simpa using range'_concat_one st.footnotes.length
      have h2' : (handle_footnote st t).footnote_count =
          (handle_footnote st t).footnotes.length := by
        rw [hstep]; simp [h2]
      have := ih (handle_footnote st t) h1' h2'
      refine ⟨this.1, ?_, this.2.2⟩
      simp only [List.foldl_cons]
      rw [this.2.1, hstep]
      simp [ht]

/-- C10: a `\footnote` whose argument converts to empty text is silently
dropped — no id, no reference marker, no entry in the collected list — so
footnote ids number exactly the non-empty footnotes consecutively from 1;
and with an empty collected list the saved package is returned unchanged by
the footnotes-part injection. -/
theorem C10_footnotes :
    (∀ (st : FootnoteState) (raw : String), pyStrip raw = "" →
      handle_footnote st raw = st) ∧
    (∀ texts : List String,
      (runFootnotes texts).footnotes.map Prod.fst =
          List.range' 1 (runFootnotes texts).footnotes.length ∧
        (runFootnotes texts).footnotes.map Prod.snd =
          (texts.map pyStrip).filter (fun t => t ≠ "") ∧
        (runFootnotes texts).footnote_count =
          (runFootnotes texts).footnotes.length) ∧
    (∀ pkg : Package, inject_footnotes_part pkg [] = pkg) := by
  refine ⟨fun st raw h => by simp [handle_footnote, h], fun texts => ?_,
    fun pkg => by simp [inject_footnotes_part]⟩
  have := runFootnotes_aux texts {} (by simp) (by simp)
  exact ⟨this.1, by simpa using this.2.1, this.2.2⟩

/-- Witness for C10: a whitespace-only footnote is dropped. -/
theorem C10_witness :
    handle_footnote ⟨1, [(1, "a")], [1]⟩ "  " = ⟨1, [(1, "a")], [1]⟩ :=
  C10_footnotes.1 ⟨1, [(1, "a")], [1]⟩ "  " (by decide)

/-! ## C8 — table column widths (corrected) -/

/-- C8 counterexample: the claim says every column with an explicit width
keeps exactly that width, and that no column has zero width; but a column
with explicit width `0` fails the Python truthiness test `if col.width_cm:`
and receives the auto width instead — here the full remaining 15 cm rather
than its declared 0 cm. -/
theorem C8_counterexample :
    colWidthsCm [{ width_cm := some 0 }, {}] = [15, 15] ∧
    colWidthsCm [{ width_cm := some 0 }, {}] ≠ [0, 15] := by
  constructor <;>
    simp [colWidthsCm, auto_width, total_fixed, num_auto, widthTruthy]

/-- C8 amended: every column with an explicit *nonzero* width keeps exactly
that width; every column without an explicit width receives the auto width
`max ((15 − total explicit width) / #auto) 1`, which is at least 1 cm; and
a column with explicit width 0 receives the auto width as well. -/
theorem C8_column_widths (columns : List ColumnDef) :
    (colWidthsCm columns).length = columns.length ∧
    ∀ (i : Nat) (col : ColumnDef), columns.get? i = some col →
      (∀ w : ℚ, col.width_cm = some w → w ≠ 0 →
        (colWidthsCm columns).get? i = some w) ∧
      (col.width_cm = none →
        (colWidthsCm columns).get? i = some (auto_width columns) ∧
        auto_width columns =
          max ((15 - total_fixed columns) / (num_auto columns : ℚ)) 1 ∧
        1 ≤ auto_width columns) ∧
      (col.width_cm = some 0 →
        (colWidthsCm columns).get? i = some (auto_width columns)) := by
  refine ⟨by simp [colWidthsCm], fun i col hcol => ?_⟩
  have hcol' : columns[i]? = some col := by
    rwa [← List.get?_eq_getElem?]
  have hget : (colWidthsCm columns).get? i =
      some (if widthTruthy col.width_cm then col.width_cm.getD 0
            else auto_width columns) := by
    simp [colWidthsCm, List.get?_eq_getElem?, List.getElem?_map, hcol']
  refine ⟨fun w hw hw0 => ?_, fun hn => ?_, fun h0 => ?_⟩
  · rw [hget, hw]
    simp [widthTruthy, hw, hw0]
  · have hmem : col ∈ columns := List.get?_mem hcol
    have hpos : 0 < num_auto columns := by
      have : col ∈ columns.filter (fun c => c.width_cm = none) :=
        List.mem_filter.mpr ⟨hmem, by simp [hn]⟩
      exact List.length_pos.mpr (List.ne_nil_of_mem this)
    have hauto : auto_width columns =
        max ((15 - total_fixed columns) / (num_auto columns : ℚ)) 1 := by
      simp [auto_width, hpos]
    refine ⟨?_, hauto, ?_⟩
    · rw [hget]; simp [widthTruthy, hn]
    · rw [hauto]; exact le_max_right _ _
  · rw [hget, h0]
    simp [widthTruthy, h0]

/-- Witness for C8 at a two-column table `p{4cm} l`: the explicit column
keeps 4 cm and the auto column gets the floor-protected remainder. -/
theorem C8_witness :
    (colWidthsCm [{ width_cm := some 4 }, {}]).get? 0 = some 4 ∧
    (colWidthsCm [{ width_cm := some 4 }, {}]).get? 1 =
      some (auto_width [{ width_cm := some 4 }, {}]) ∧
    1 ≤ auto_width [{ width_cm := some 4 }, {}] :=
  ⟨((C8_column_widths [{ width_cm := some 4 }, {}]).2 0
      { width_cm := some 4 } rfl).1 4 rfl (by norm_num),
   (((C8_column_widths [{ width_cm := some 4 }, {}]).2 1 {} rfl).2.1 rfl).1,
   (((C8_column_widths [{ width_cm := some 4 }, {}]).2 1 {} rfl).2.1 rfl).2.2⟩

/-! ## C2 — heading cursor (corrected) -/

theorem findHeadingScan_spec (norm_title level : String) :
    ∀ (pending : List TocEntry) (i j : Nat) (e : TocEntry),
      findHeadingScan norm_title level pending i = some (j, e) →
      i ≤ j ∧ pending.get? (j - i) = some e := by
  intro pending
  induction pending with
  | nil => intro i j e h; simp [findHeadingScan] at h
  | cons p rest ih =>
    intro i j e h
    rw [findHeadingScan] at h
    split at h
    · obtain ⟨hle, hget⟩ := ih (i + 1) j e h
      refine ⟨by omega, ?_⟩
      have hidx : j - i = (j - (i + 1)) + 1 := by omega
      rw [hidx]
      simpa using hget
    · split at h
      · cases h
        exact ⟨le_refl _, by simp⟩
      · obtain ⟨hle, hget⟩ := ih (i + 1) j e h
        refine ⟨by omega, ?_⟩
        have hidx : j - i = (j - (i + 1)) + 1 := by omega
        rw [hidx]
        simpa using hget

theorem find_heading_some (s : TexStructure) (t lvl : String) (e : TocEntry)
    (s' : TexStructure) (h : find_heading s t lvl = (some e, s')) :
    ∃ j, s'.toc_cursor = j + 1 ∧ s.toc_cursor ≤ j ∧
      s.toc_entries.get? j = some e ∧ s'.toc_entries = s.toc_entries := by
  cases hfh : findHeadingScan (normalize_for_match t) lvl
      (s.toc_entries.drop s.toc_cursor) s.toc_cursor with
  | none =>
    unfold find_heading at h
    rw [hfh] at h
    simp at h
  | some pe =>
    obtain ⟨i, e'⟩ := pe
    unfold find_heading at h
    rw [hfh] at h
    simp only [Prod.mk.injEq, Option.some.injEq] at h
    obtain ⟨rfl, rfl⟩ := h
    obtain ⟨hle, hget⟩ := findHeadingScan_spec _ _ _ _ _ _ hfh
    refine ⟨i, rfl, hle, ?_, rfl⟩
    rw [List.get?_eq_getElem?, List.getElem?_drop,
      Nat.add_sub_cancel' hle] at hget
    rwa [List.get?_eq_getElem?]

/-- C2 counterexample: the claim accepts a title match whenever the
normalized strings are equal; with the one-entry TOC `[{level := section,
title := "\relax"}]` and query `"\relax"`, both normalize to the empty
string — equal — yet `find_heading` returns no match, because
`_titles_match` rejects empty normalized titles. -/
theorem C2_counterexample :
    normalize_for_match "\\relax" =
      normalize_for_match (TocEntry.title ⟨"section", "1", "\\relax", 1⟩) ∧
    (find_heading { toc_entries := [⟨"section", "1", "\\relax", 1⟩] }
        "\\relax" "section").1 = none := by
  exact ⟨rfl, rfl⟩

/-- C2 amended: `find_heading` is a forward-only cursor scan — whenever two
successive calls both return an entry, the indices matched strictly
increase (the second entry lies past the previously matched position, which
the cursor has advanced beyond), and a title matches an entry exactly when
the normalized strings are both non-empty and equal or one contains the
other. -/
theorem C2_find_heading_cursor :
    (∀ (s : TexStructure) (t1 l1 t2 l2 : String) (e1 e2 : TocEntry)
        (s1 s2 : TexStructure),
      find_heading s t1 l1 = (some e1, s1) →
      find_heading s1 t2 l2 = (some e2, s2) →
      ∃ j1 j2 : Nat, s1.toc_cursor = j1 + 1 ∧ s2.toc_cursor = j2 + 1 ∧
        s.toc_cursor ≤ j1 ∧ j1 < j2 ∧
        s.toc_entries.get? j1 = some e1 ∧
        s.toc_entries.get? j2 = some e2) ∧
    (∀ (s : TexStructure) (t lvl : String),
      (find_heading s t lvl).1 = none → (find_heading s t lvl).2 = s) ∧
    (∀ a b : String, titles_match a b = true ↔
      (a ≠ "" ∧ b ≠ "" ∧
        (a = b ∨ pyInStr a b = true ∨ pyInStr b a = true))) := by
  refine ⟨?_, ?_, ?_⟩
  · intro s t1 l1 t2 l2 e1 e2 s1 s2 h1 h2
    obtain ⟨j1, hc1, hle1, hget1, hent1⟩ := find_heading_some s t1 l1 e1 s1 h1
    obtain ⟨j2, hc2, hle2, hget2, hent2⟩ := find_heading_some s1 t2 l2 e2 s2 h2
    refine ⟨j1, j2, hc1, hc2, hle1, by omega, hget1, ?_⟩
    rw [hent1] at hget2
    exact hget2
  · intro s t lvl h
    unfold find_heading at h ⊢
    cases hfh : findHeadingScan (normalize_for_match t) lvl
        (s.toc_entries.drop s.toc_cursor) s.toc_cursor with
    | none => rfl
    | some pe =>
      rw [hfh] at h
      simp at h
  · intro a b
    by_cases ha : a = "" <;> by_cases hb : b = "" <;>
      simp [titles_match, ha, hb, or_assoc]

/-- Witness for C2: two entries with the same title at the same level are
matched in order by successive calls, at strictly increasing indices. -/
theorem C2_witness :
    ∃ j1 j2 : Nat,
      (TexStructure.mk [⟨"section", "1.1", "Intro", 1⟩,
          ⟨"section", "1.2", "Intro", 2⟩] [] [] [] [] 1).toc_cursor = j1 + 1 ∧
      (TexStructure.mk [⟨"section", "1.1", "Intro", 1⟩,
          ⟨"section", "1.2", "Intro", 2⟩] [] [] [] [] 2).toc_cursor = j2 + 1 ∧
      (TexStructure.mk [⟨"section", "1.1", "Intro", 1⟩,
          ⟨"section", "1.2", "Intro", 2⟩] [] [] [] [] 0).toc_cursor ≤ j1 ∧
      j1 < j2 ∧
      (TexStructure.mk [⟨"section", "1.1", "Intro", 1⟩,
          ⟨"section", "1.2", "Intro", 2⟩] [] [] [] [] 0).toc_entries.get? j1 =
        some ⟨"section", "1.1", "Intro", 1⟩ ∧
      (TexStructure.mk [⟨"section", "1.1", "Intro", 1⟩,
          ⟨"section", "1.2", "Intro", 2⟩] [] [] [] [] 0).toc_entries.get? j2 =
        some ⟨"section", "1.2", "Intro", 2⟩ :=
  C2_find_heading_cursor.1
    (TexStructure.mk [⟨"section", "1.1", "Intro", 1⟩,
      ⟨"section", "1.2", "Intro", 2⟩] [] [] [] [] 0)
    "Intro" "section" "Intro" "section" _ _ _ _ (by decide) (by decide)

/-! ## C1 — citation-number resolution -/

theorem labelsGet_map_replace (k key : String) (v : LabelInfo)
    (hne : k ≠ key) :
    ∀ ls : List (String × LabelInfo),
      labelsGet (ls.map (fun p => if p.1 = key then (key, v) else p)) k =
        labelsGet ls k := by
  intro ls
  induction ls with
  | nil => rfl
  | cons p rest ih =>
    by_cases hp : p.1 = key
    · show labelsGet ((if p.1 = key then (key, v) else p) :: _) k = _
      rw [if_pos hp]
      unfold labelsGet
      rw [List.find?_cons_of_neg _ (by simp [Ne.symm hne]),
        List.find?_cons_of_neg _ (by simp [hp, Ne.symm hne])]
      exact ih
    · show labelsGet ((if p.1 = key then (key, v) else p) :: _) k = _
      rw [if_neg hp]
      unfold labelsGet
      by_cases hpk : p.1 = k
      · rw [List.find?_cons_of_pos _ (by simp [hpk]),
          List.find?_cons_of_pos _ (by simp [hpk])]
      · rw [List.find?_cons_of_neg _ (by simp [hpk]),
          List.find?_cons_of_neg _ (by simp [hpk])]
        exact ih

theorem labelsGet_append_ne (k key : String) (v : LabelInfo) (hne : k ≠ key) :
    ∀ ls : List (String × LabelInfo),
      labelsGet (ls ++ [(key, v)]) k = labelsGet ls k := by
  intro ls
  induction ls with
  | nil =>
    unfold labelsGet
    simp [Ne.symm hne]
  | cons p rest ih =>
    unfold labelsGet
    by_cases hpk : p.1 = k
    · rw [List.cons_append, List.find?_cons_of_pos _ (by simp [hpk]),
        List.find?_cons_of_pos _ (by simp [hpk])]
    · rw [List.cons_append, List.find?_cons_of_neg _ (by simp [hpk]),
        List.find?_cons_of_neg _ (by simp [hpk])]
      exact ih

theorem labelsGet_labelsSet_ne {ls : List (String × LabelInfo)}
    {k key : String} (v : LabelInfo) (hne : k ≠ key) :
    labelsGet (labelsSet ls key v) k = labelsGet ls k := by
  unfold labelsSet
  split
  · exact labelsGet_map_replace k key v hne ls
  · exact labelsGet_append_ne k key v hne ls

theorem labelsGet_map_replace_self (key : String) (v : LabelInfo) :
    ∀ ls : List (String × LabelInfo),
      (List.find? (fun p => p.1 = key) ls).isSome →
      labelsGet (ls.map (fun p => if p.1 = key then (key, v) else p)) key =
        some v := by
  intro ls
  induction ls with
  | nil => intro h; simp at h
  | cons p rest ih =>
    intro h
    by_cases hp : p.1 = key
    · show labelsGet ((if p.1 = key then (key, v) else p) :: _) key = _
      rw [if_pos hp]
      unfold labelsGet
      rw [List.find?_cons_of_pos _ (by simp)]
      rfl
    · show labelsGet ((if p.1 = key then (key, v) else p) :: _) key = _
      rw [if_neg hp]
      unfold labelsGet
      rw [List.find?_cons_of_neg _ (by simp [hp])]
      rw [List.find?_cons_of_neg _ (by simp [hp])] at h
      exact ih h

theorem labelsGet_append_self (key : String) (v : LabelInfo) :
    ∀ ls : List (String × LabelInfo),
      ¬ (List.find? (fun p => p.1 = key) ls).isSome →
      labelsGet (ls ++ [(key, v)]) key = some v := by
  intro ls
  induction ls with
  | nil => intro _; unfold labelsGet; simp
  | cons p rest ih =>
    intro h
    by_cases hpk : p.1 = key
    · exact absurd (by rw [List.find?_cons_of_pos _ (by simp [hpk])]; rfl) h
    · unfold labelsGet
      rw [List.cons_append, List.find?_cons_of_neg _ (by simp [hpk])]
      rw [List.find?_cons_of_neg _ (by simp [hpk])] at h
      exact ih h

theorem labelsGet_labelsSet_self {ls : List (String × LabelInfo)}
    {key : String} (v : LabelInfo) :
    labelsGet (labelsSet ls key v) key = some v := by
  unfold labelsSet
  split
  case isTrue h => exact labelsGet_map_replace_self key v ls h
  case isFalse h => exact labelsGet_append_self key v ls h

theorem citeFold_preserves (pairs : List (Nat × String)) :
    ∀ (ls : List (String × LabelInfo)) (k : String) (v : LabelInfo),
      labelsGet ls k = some v →
      labelsGet (pairs.foldl citeStep ls) k = some v := by
  induction pairs with
  | nil => intro ls k v h; simpa using h
  | cons p rest ih =>
    intro ls k v h
    simp only [List.foldl_cons]
    apply ih
    unfold citeStep
    split
    · exact h
    · by_cases hk : k = p.2
      · rename_i hnone
        rw [hk] at h
        simp [h] at hnone
      · rw [labelsGet_labelsSet_ne _ hk]
        exact h

theorem citeFold_new (k : String) :
    ∀ (order : List String) (n : Nat) (ls : List (String × LabelInfo)),
      labelsGet ls k = none → k ∈ order →
      labelsGet ((List.enumFrom n order).foldl citeStep ls) k =
        some ⟨k, toString (n + order.indexOf k + 1), 0⟩ := by
  intro order
  induction order with
  | nil => intro n ls _ hmem; simp at hmem
  | cons o rest ih =>
    intro n ls hnone hmem
    simp only [List.enumFrom, List.foldl_cons]
    by_cases ho : o = k
    · subst ho
      have hstep : citeStep ls (n, o) =
          labelsSet ls o ⟨o, toString (n + 1), 0⟩ := by
        simp [citeStep, hnone]
      rw [hstep, List.indexOf_cons_self]
      have hself : labelsGet (labelsSet ls o ⟨o, toString (n + 1), 0⟩) o =
          some ⟨o, toString (n + 1), 0⟩ := labelsGet_labelsSet_self _
      have hpres := citeFold_preserves (List.enumFrom (n + 1) rest) _ o _ hself
      simpa using hpres
    · have hmem' : k ∈ rest := by
        cases hmem with
        | head => exact absurd rfl ho
        | tail _ h => exact h
      have hnone' : labelsGet (citeStep ls (n, o)) k = none := by
        unfold citeStep
        split
        · exact hnone
        · rw [labelsGet_labelsSet_ne _ (fun h => ho h.symm)]
          exact hnone
      have hrec := ih (n + 1) (citeStep ls (n, o)) hnone' hmem'
      rw [hrec, List.indexOf_cons_ne _ ho]
      have harith : n + 1 + rest.indexOf k + 1 =
          n + Nat.succ (rest.indexOf k) + 1 := by omega
      rw [harith]

theorem parse_aux_file_labels (lines : List String)
    (bbl : Option (List String)) :
    (parse_aux_file lines bbl).labels =
      match bbl with
      | some order =>
        if order ≠ [] then
          assignCitationNumbers (scanAuxLines lines).labels order
        else
          assignCitationNumbers (scanAuxLines lines).labels
            (scanAuxLines lines).citation_order
      | none =>
        if (scanAuxLines lines).citation_order ≠ [] then
          assignCitationNumbers (scanAuxLines lines).labels
            (scanAuxLines lines).citation_order
        else (scanAuxLines lines).labels := by
  cases bbl <;> simp only [parse_aux_file, scanAuxLines] <;> split <;> rfl

/-- C1: citation-number resolution follows the priority chain.  Explicit
`\bibcite` markers (and any label assigned during the line scan) win — the
numbering pass never overwrites an assigned key; otherwise, with a parsed
`.bbl`, a key's number is its 1-based first position in the `.bbl` entry
order; otherwise (no `.bbl` file, or one with no entries) it is the key's
1-based first-seen position in the aux citation order.  In particular, for
aux citation order `[b, a]` and bibliography order `[a, b]` with no
`\bibcite` entries, `resolve_ref "a" = "1"` and `resolve_ref "b" = "2"`. -/
theorem C1_citation_priority :
    ((parse_aux_file ["\\abx@aux@cite\x7bb\x7d", "\\abx@aux@cite\x7ba\x7d"]
        (some ["a", "b"])).resolve_ref "a" = some "1" ∧
      (parse_aux_file ["\\abx@aux@cite\x7bb\x7d", "\\abx@aux@cite\x7ba\x7d"]
        (some ["a", "b"])).resolve_ref "b" = some "2" ∧
      (scanAuxLines ["\\abx@aux@cite\x7bb\x7d",
        "\\abx@aux@cite\x7ba\x7d"]).citation_order = ["b", "a"]) ∧
    (∀ (lines : List String) (bbl : Option (List String)) (k : String)
        (v : LabelInfo),
      labelsGet (scanAuxLines lines).labels k = some v →
      labelsGet (parse_aux_file lines bbl).labels k = some v) ∧
    (∀ (lines : List String) (order : List String) (k : String),
      labelsGet (scanAuxLines lines).labels k = none →
      order ≠ [] → k ∈ order →
      labelsGet (parse_aux_file lines (some order)).labels k =
        some ⟨k, toString (order.indexOf k + 1), 0⟩) ∧
    (∀ (lines : List String) (bbl : Option (List String)) (k : String),
      labelsGet (scanAuxLines lines).labels k = none →
      (bbl = none ∨ bbl = some []) →
      k ∈ (scanAuxLines lines).citation_order →
      labelsGet (parse_aux_file lines bbl).labels k =
        some ⟨k, toString ((scanAuxLines lines).citation_order.indexOf k + 1),
          0⟩) := by
  refine ⟨by decide, ?_, ?_, ?_⟩
  · intro lines bbl k v h
    rw [parse_aux_file_labels]
    cases bbl with
    | none =>
      dsimp only
      by_cases hc : (scanAuxLines lines).citation_order ≠ []
      · rw [if_pos hc]
        exact citeFold_preserves _ _ _ _ h
      · rw [if_neg hc]
        exact h
    | some order =>
      dsimp only
      by_cases hc : order ≠ []
      · rw [if_pos hc]
        exact citeFold_preserves _ _ _ _ h
      · rw [if_neg hc]
        exact citeFold_preserves _ _ _ _ h
  · intro lines order k hnone hne hmem
    rw [parse_aux_file_labels]
    dsimp only
    rw [if_pos hne]
    have hnew := citeFold_new k order 0 (scanAuxLines lines).labels hnone hmem
    unfold assignCitationNumbers
    simpa using hnew
  · intro lines bbl k hnone hbbl hmem
    have hco : (scanAuxLines lines).citation_order ≠ [] :=
      List.ne_nil_of_mem hmem
    have hnew := citeFold_new k (scanAuxLines lines).citation_order 0
      (scanAuxLines lines).labels hnone hmem
    cases hbbl with
    | inl h =>
      subst h
      rw [parse_aux_file_labels]
      dsimp only
      rw [if_pos hco]
      unfold assignCitationNumbers
      simpa using hnew
    | inr h =>
      subst h
      rw [parse_aux_file_labels]
      dsimp only
      rw [if_neg (by simp)]
      unfold assignCitationNumbers
      simpa using hnew

/-- Witness for C1: a `\bibcite` marker beats the `.bbl` entry order, and a
key only in the `.bbl` order gets its `.bbl` position. -/
theorem C1_witness :
    labelsGet (parse_aux_file ["\\bibcite\x7bx\x7d\x7b9\x7d"]
      (some ["y", "x"])).labels "x" = some ⟨"x", "9", 0⟩ ∧
    labelsGet (parse_aux_file ["\\bibcite\x7bx\x7d\x7b9\x7d"]
      (some ["y", "x"])).labels "y" = some ⟨"y", "1", 0⟩ :=
  ⟨C1_citation_priority.2.1 ["\\bibcite\x7bx\x7d\x7b9\x7d"] (some ["y", "x"])
      "x" ⟨"x", "9", 0⟩ (by decide),
   C1_citation_priority.2.2.1 ["\\bibcite\x7bx\x7d\x7b9\x7d"] ["y", "x"] "y"
      (by decide) (by decide) (by decide)⟩

/-! ## C3 — lossless tokenization (spec-modelled) -/

theorem delimSuffix_spec (close : Char) :
    ∀ (t a tail : List Char), delimSuffix close t = some (a, tail) →
      a ++ close :: tail = t := by
  intro t
  induction t with
  | nil => intro a tail h; simp [delimSuffix] at h
  | cons x xs ih =>
    intro a tail h
    by_cases hx : x = close
    · unfold delimSuffix at h
      rw [List.dropWhile_cons, if_neg (by simp [hx]),
        List.takeWhile_cons, if_neg (by simp [hx])] at h
      simp only [Option.some.injEq, Prod.mk.injEq] at h
      obtain ⟨rfl, rfl⟩ := h
      simp [hx]
    · unfold delimSuffix at h
      rw [List.dropWhile_cons, if_pos (by simp [hx]),
        List.takeWhile_cons, if_pos (by simp [hx])] at h
      cases hd : xs.dropWhile (fun y => y ≠ close) with
      | nil => rw [hd] at h; simp at h
      | cons c2 tail2 =>
        rw [hd] at h
        simp only [Option.some.injEq, Prod.mk.injEq] at h
        obtain ⟨rfl, rfl⟩ := h
        have hxs : delimSuffix close xs =
            some (xs.takeWhile (fun y => y ≠ close), tail2) := by
          unfold delimSuffix
          rw [hd]
        have := ih _ _ hxs
        simpa using this

theorem findDoubleDollar_spec :
    ∀ (l r1 r2 : List Char), findDoubleDollar l = some (r1, r2) →
      r1 ++ '$' :: '$' :: r2 = l := by
  intro l
  induction l with
  | nil => intro r1 r2 h; simp [findDoubleDollar] at h
  | cons c t ih =>
    intro r1 r2 h
    rw [findDoubleDollar] at h
    split at h
    · rename_i hcond
      obtain ⟨hc, hh⟩ := hcond
      simp only [Option.some.injEq, Prod.mk.injEq] at h
      obtain ⟨rfl, rfl⟩ := h
      cases t with
      | nil => simp at hh
      | cons d t2 =>
        simp only [List.head?_cons, Option.some.injEq] at hh
        subst hh
        subst hc
        rfl
    · simp only [Option.map_eq_some'] at h
      obtain ⟨p, hp, heq⟩ := h
      injection heq with h1 h2
      subst h1
      subst h2
      have hrec := ih p.1 p.2 (by rw [hp])
      rw [← hrec]
      simp

theorem nextTokCommand_spec (letters after : List Char) :
    (nextTokCommand letters after).raw ++ (nextTokCommand letters after).rest =
      '\\' :: (letters ++ after) ∧ (nextTokCommand letters after).raw ≠ [] := by
  unfold nextTokCommand
  by_cases hbe : (⟨letters⟩ : String) = "begin" ∨ (⟨letters⟩ : String) = "end"
  · rw [if_pos hbe]
    by_cases hh : after.head? = some '\x7b'
    · rw [if_pos hh]
      have hafter : after = '\x7b' :: after.tail := by
        cases after with
        | nil => simp at hh
        | cons a t =>
          simp only [List.head?_cons, Option.some.injEq] at hh
          rw [hh]
          rfl
      cases hd : delimSuffix '\x7d' after.tail with
      | some p =>
        have hs := delimSuffix_spec '\x7d' after.tail p.1 p.2 (by rw [hd])
        refine ⟨?_, by simp⟩
        simp only []
        conv_rhs => rw [hafter, ← hs]
        simp
      | none => exact ⟨by rw [hafter]; simp, by simp⟩
    · rw [if_neg hh]
      exact ⟨by simp, by simp⟩
  · rw [if_neg hbe]
    by_cases h1 : (⟨letters⟩ : String) = "hline"
    · rw [if_pos h1]; exact ⟨by simp, by simp⟩
    rw [if_neg h1]
    by_cases h2 : (⟨letters⟩ : String) = "toprule"
    · rw [if_pos h2]; exact ⟨by simp, by simp⟩
    rw [if_neg h2]
    by_cases h3 : (⟨letters⟩ : String) = "midrule"
    · rw [if_pos h3]; exact ⟨by simp, by simp⟩
    rw [if_neg h3]
    by_cases h4 : (⟨letters⟩ : String) = "bottomrule"
    · rw [if_pos h4]; exact ⟨by simp, by simp⟩
    rw [if_neg h4]
    by_cases h5 : (⟨letters⟩ : String) = "cmidrule"
    · rw [if_pos h5]; exact ⟨by simp, by simp⟩
    rw [if_neg h5]
    by_cases h6 : (⟨letters⟩ : String) = "item"
    · rw [if_pos h6]
      by_cases hh : after.head? = some '['
      · rw [if_pos hh]
        have hafter : after = '[' :: after.tail := by
          cases after with
          | nil => simp at hh
          | cons a t =>
            simp only [List.head?_cons, Option.some.injEq] at hh
            rw [hh]
            rfl
        cases hd : delimSuffix ']' after.tail with
        | some p =>
          have hs := delimSuffix_spec ']' after.tail p.1 p.2 (by rw [hd])
          refine ⟨?_, by simp⟩
          simp only []
          conv_rhs => rw [hafter, ← hs]
          simp
        | none => exact ⟨by simp, by simp⟩
      · rw [if_neg hh]
        exact ⟨by simp, by simp⟩
    · rw [if_neg h6]
      exact ⟨by simp, by simp⟩
theorem nextTok_spec (c : Char) (rest : List Char) :
    (nextTok c rest).raw ++ (nextTok c rest).rest = c :: rest ∧
      (nextTok c rest).raw ≠ [] := by
  unfold nextTok
  by_cases h1 : c = '%'
  · rw [if_pos h1]
    exact ⟨by simp [List.takeWhile_append_dropWhile], by simp⟩
  rw [if_neg h1]
  by_cases h2 : pyIsSpace c = true
  · rw [if_pos h2]
    exact ⟨by simp [List.takeWhile_append_dropWhile], by simp⟩
  rw [if_neg h2]
  by_cases h3 : c = '\\'
  · rw [if_pos h3]
    cases rest with
    | nil => exact ⟨by simp [h3], by simp⟩
    | cons d rest2 =>
      dsimp only
      by_cases hd : d.isAlpha = true
      · rw [if_pos hd]
        have hc := nextTokCommand_spec ((d :: rest2).takeWhile Char.isAlpha)
          ((d :: rest2).dropWhile Char.isAlpha)
        rw [List.takeWhile_append_dropWhile] at hc
        rw [h3]
        exact hc
      · rw [if_neg hd]
        by_cases hdd : d = '\\'
        · rw [if_pos hdd]
          exact ⟨by simp [h3], by simp⟩
        · rw [if_neg hdd]
          exact ⟨by simp [h3], by simp⟩
  rw [if_neg h3]
  by_cases h4 : c = '$'
  · rw [if_pos h4]
    by_cases hh : rest.head? = some '$'
    · rw [if_pos hh]
      have hrest : rest = '$' :: rest.tail := by
        cases rest with
        | nil => simp at hh
        | cons a t =>
          simp only [List.head?_cons, Option.some.injEq] at hh
          rw [hh]
          rfl
      cases hd : findDoubleDollar rest.tail with
      | some p =>
        have hs := findDoubleDollar_spec rest.tail p.1 p.2 (by rw [hd])
        refine ⟨?_, by simp⟩
        conv_rhs => rw [h4, hrest, ← hs]
        simp
      | none =>
        refine ⟨?_, by simp⟩
        conv_rhs => rw [h4, hrest]
        simp
    · rw [if_neg hh]
      cases hd : delimSuffix '$' rest with
      | some p =>
        have hs := delimSuffix_spec '$' rest p.1 p.2 (by rw [hd])
        refine ⟨?_, by simp⟩
        conv_rhs => rw [← hs]
        simp
      | none => exact ⟨by simp, by simp⟩
  rw [if_neg h4]
  by_cases h5 : c = '\x7b'
  · rw [if_pos h5]; exact ⟨by simp, by simp⟩
  rw [if_neg h5]
  by_cases h6 : c = '\x7d'
  · rw [if_pos h6]; exact ⟨by simp, by simp⟩
  rw [if_neg h6]
  by_cases h7 : c = '['
  · rw [if_pos h7]; exact ⟨by simp, by simp⟩
  rw [if_neg h7]
  by_cases h8 : c = ']'
  · rw [if_pos h8]; exact ⟨by simp, by simp⟩
  rw [if_neg h8]
  by_cases h9 : c = '&'
  · rw [if_pos h9]; exact ⟨by simp, by simp⟩
  rw [if_neg h9]
  exact ⟨by simp [List.takeWhile_append_dropWhile], by simp⟩
theorem data_foldl_append :
    ∀ (l : List String) (acc : String),
      (l.foldl (fun r s => r ++ s) acc).data =
        acc.data ++ (l.map String.data).flatten := by
  intro l
  induction l with
  | nil => intro acc; simp
  | cons x xs ih =>
    intro acc
    simp only [List.foldl_cons, List.map_cons, List.flatten_cons, ih]
    show acc.data ++ x.data ++ _ = _
    simp [List.append_assoc]

theorem tokenizeL_lossless :
    ∀ (fuel : Nat) (cs : List Char),
      ((tokenizeL fuel cs).map (fun t => t.value.data)).flatten = cs := by
  intro fuel
  induction fuel with
  | zero => intro cs; cases cs <;> simp [tokenizeL]
  | succ fuel ih =>
    intro cs
    cases cs with
    | nil => simp [tokenizeL]
    | cons c rest =>
      have hs := nextTok_spec c rest
      simp only [tokenizeL, RawTok.toToken, List.map_cons, List.flatten_cons]
      rw [ih]
      exact hs.1

/-- C3: tokenizing a LaTeX source string and concatenating the raw values
of all produced tokens in order reproduces the original source exactly —
every character, including comments and whitespace, is accounted for by
some token. -/
theorem C3_tokenize_lossless (s : String) :
    String.join ((tokenize s).map Token.value) = s := by
  apply String.ext
  show (((tokenize s).map Token.value).foldl (fun r s => r ++ s) "").data = _
  rw [data_foldl_append]
  simp only [List.map_map]
  have := tokenizeL_lossless s.data.length s.data
  simpa [tokenize, Function.comp] using this

end SmartLatex
